import Mathlib

/-!
Verification of the ARIS risk-scoring engine
(`backend/data_pipeline/risk_engine.py`, column handling from
`backend/data_pipeline/clean_data.py`) against its specification.

Tables are embedded as lists of records; pandas numeric columns are
embedded as rationals (the engine's arithmetic is exact on the inputs the
spec discusses).  `groupby(...).agg(...=(..., "sum"))` becomes
one-row-per-distinct-key with summed values, a left `merge` followed by
`fillna(0)` becomes a lookup in the aggregated right table defaulting to
zero, `sort_values` becomes a stable insertion sort by the same
lexicographic key, `pct_change().replace([inf,-inf],0).fillna(0).abs()`
becomes `momChanges`, and `rank(pct=True)` becomes the average-rank
formula divided by the row count.  `.round(2)` is numpy's
round-half-to-even at two decimals, embedded as `round2`.
-/

/-- The four-part grouping key (state, district, year, month). -/
structure Key where
  state : String
  district : String
  year : Int
  month : Int
deriving DecidableEq, Repr, Inhabited

/-- A raw row of the cleaned biometric table. -/
structure BioRow where
  key : Key
  bio_5_17 : ℚ
  bio_17_plus : ℚ
deriving DecidableEq, Repr

/-- A raw row of the cleaned demographic table. -/
structure DemoRow where
  key : Key
  demo_5_17 : ℚ
  demo_17_plus : ℚ
deriving DecidableEq, Repr

/-- A raw row of the cleaned enrolment table (only `enrolment_count` is
read by the engine). -/
structure EnrolRow where
  key : Key
  enrolment_count : ℚ
deriving DecidableEq, Repr

/-- A row of the engine's working dataframe.  Columns that a given stage
has not yet assigned hold `0`, mirroring a dataframe in which the column
does not exist yet. -/
structure Row where
  key : Key
  bio_5_17 : ℚ := 0
  bio_17_plus : ℚ := 0
  demo_5_17 : ℚ := 0
  demo_17_plus : ℚ := 0
  enrolment_count : ℚ := 0
  total_bio_updates : ℚ := 0
  total_demo_updates : ℚ := 0
  bio_update_rate : ℚ := 0
  demo_update_rate : ℚ := 0
  bio_age_skew : ℚ := 0
  demo_age_skew : ℚ := 0
  bio_mom_change : ℚ := 0
  demo_mom_change : ℚ := 0
  risk_signal : ℚ := 0
  risk_percent : ℚ := 0
deriving DecidableEq, Repr, Inhabited

/-- Sum of a column over the rows sharing a grouping key: the value the
pandas `groupby(key).agg(sum)` assigns to that key. -/
def sumAt {α : Type} (keyOf : α → Key) (f : α → ℚ) (rows : List α) (k : Key) : ℚ :=
  ((rows.filter (fun r => keyOf r = k)).map f).sum

/-- `bio.groupby(["state","district","year","month"]).agg(sum)`. -/
def aggBio (bio : List BioRow) : List BioRow :=
  ((bio.map BioRow.key).dedup).map (fun k =>
    { key := k
      bio_5_17 := sumAt BioRow.key BioRow.bio_5_17 bio k
      bio_17_plus := sumAt BioRow.key BioRow.bio_17_plus bio k })

/-- `demo.groupby([...]).agg(sum)`. -/
def aggDemo (demo : List DemoRow) : List DemoRow :=
  ((demo.map DemoRow.key).dedup).map (fun k =>
    { key := k
      demo_5_17 := sumAt DemoRow.key DemoRow.demo_5_17 demo k
      demo_17_plus := sumAt DemoRow.key DemoRow.demo_17_plus demo k })

/-- `enrol.groupby([...]).agg(sum)`. -/
def aggEnrol (enrol : List EnrolRow) : List EnrolRow :=
  ((enrol.map EnrolRow.key).dedup).map (fun k =>
    { key := k
      enrolment_count := sumAt EnrolRow.key EnrolRow.enrolment_count enrol k })

/-- The two left merges on the four-part key anchored on the biometric
aggregate, followed by `fillna(0)`: a key of the biometric aggregate that
is absent from the (uniquely-keyed) right aggregate gets zeros. -/
def mergeTables (bio : List BioRow) (demo : List DemoRow) (enrol : List EnrolRow) :
    List Row :=
  (aggBio bio).map (fun b =>
    { key := b.key
      bio_5_17 := b.bio_5_17
      bio_17_plus := b.bio_17_plus
      demo_5_17 :=
        match (aggDemo demo).find? (fun r => r.key = b.key) with
        | some d => d.demo_5_17
        | none => 0
      demo_17_plus :=
        match (aggDemo demo).find? (fun r => r.key = b.key) with
        | some d => d.demo_17_plus
        | none => 0
      enrolment_count :=
        match (aggEnrol enrol).find? (fun r => r.key = b.key) with
        | some e => e.enrolment_count
        | none => 0 })

/-- The totals, smoothed update rates and smoothed age skews
(risk_engine.py lines 94-103). -/
def addIndicators (r : Row) : Row :=
  { r with
    total_bio_updates := r.bio_5_17 + r.bio_17_plus
    total_demo_updates := r.demo_5_17 + r.demo_17_plus
    bio_update_rate := (r.bio_5_17 + r.bio_17_plus) / (r.enrolment_count + 1)
    demo_update_rate := (r.demo_5_17 + r.demo_17_plus) / (r.enrolment_count + 1)
    bio_age_skew := r.bio_5_17 / (r.bio_17_plus + 1)
    demo_age_skew := r.demo_5_17 / (r.demo_17_plus + 1) }

/-- The code-point order on strings used by pandas sorts: Lean core's
`String <` is exactly this relation on the character lists; we name it and
give it a decidability instance that evaluates (Mathlib's iterator-based
one does not reduce in the kernel). -/
def strLT (a b : String) : Prop :=
  List.lt a.data b.data

instance : DecidableRel strLT := fun a b =>
  List.hasDecidableLt a.data b.data

/-- Lexicographic order used by `sort_values(["state","district","year","month"])`. -/
def keyLE (a b : Key) : Prop :=
  strLT a.state b.state ∨ (a.state = b.state ∧
    (strLT a.district b.district ∨ (a.district = b.district ∧
      (a.year < b.year ∨ (a.year = b.year ∧ a.month ≤ b.month)))))

instance : DecidableRel keyLE := fun a b => by
  unfold keyLE
  infer_instance

/-- Row comparison by the four-part key. -/
def rowLE (a b : Row) : Prop :=
  keyLE a.key b.key

instance : DecidableRel rowLE := fun a b => by
  unfold rowLE
  infer_instance

/-- The (state, district) pair of a row — pandas `groupby(["state","district"])`. -/
def regionOf (r : Row) : String × String :=
  (r.key.state, r.key.district)

/-- One step of `pct_change().replace([np.inf,-np.inf],0).fillna(0).abs()`:
the relative change from `prev` to `cur`; a zero previous value (where the
float code yields ±inf or NaN) is replaced by `0`; absolute value last. -/
def step (prev cur : ℚ) : ℚ :=
  if prev = 0 then 0 else |(cur - prev) / prev|

/-- The month-over-month change column of one group: the first entry has
no predecessor and becomes `0` (`fillna(0)`); every later entry is `step`
of the consecutive pair. -/
def momChanges (l : List ℚ) : List ℚ :=
  match l with
  | [] => []
  | _ :: _ => 0 :: ((l.zip l.tail).map (fun p => step p.1 p.2))

/-- Assign the two volatility columns of a row. -/
def setMoms (r : Row) (bm dm : ℚ) : Row :=
  { r with bio_mom_change := bm, demo_mom_change := dm }

/-- risk_engine.py lines 108-124: sort by the four-part key, then within
every (state, district) group compute `pct_change` of the two update
rates.  Groups are laid out in first-appearance order of the sorted
frame, which is exactly the sorted order itself because the sort key
starts with (state, district). -/
def addVolatility (rows : List Row) : List Row :=
  (((rows.insertionSort rowLE).map regionOf).dedup).flatMap (fun p =>
    let g := (rows.insertionSort rowLE).filter (fun r => regionOf r = p)
    (g.zip ((momChanges (g.map Row.bio_update_rate)).zip
        (momChanges (g.map Row.demo_update_rate)))).map
      (fun q => setMoms q.1 q.2.1 q.2.2))

/-- The sorted rows of one (state, district) group: what the `let g := ...`
inside the volatility stage binds for the group `p`. -/
def sortedGroup (rows : List Row) (p : String × String) : List Row :=
  (rows.insertionSort rowLE).filter (fun r => regionOf r = p)

/-- The rows the volatility stage emits for one (state, district) group. -/
def volBlock (rows : List Row) (p : String × String) : List Row :=
  ((sortedGroup rows p).zip
      ((momChanges ((sortedGroup rows p).map Row.bio_update_rate)).zip
        (momChanges ((sortedGroup rows p).map Row.demo_update_rate)))).map
    (fun q => setMoms q.1 q.2.1 q.2.2)

/-- The composite risk signal with the fixed explainable weights
(risk_engine.py lines 129-135). -/
def addSignal (r : Row) : Row :=
  { r with risk_signal :=
      0.30 * r.bio_update_rate + 0.25 * r.demo_update_rate +
      0.20 * r.bio_age_skew + 0.15 * r.demo_age_skew +
      0.10 * (r.bio_mom_change + r.demo_mom_change) }

/-- pandas average rank of `x` within `xs`: the count of strictly smaller
values plus the average position among the ties. -/
def avgRank (xs : List ℚ) (x : ℚ) : ℚ :=
  ((xs.filter (fun y => y < x)).length : ℚ) +
    (((xs.filter (fun y => y = x)).length : ℚ) + 1) / 2

/-- numpy round-half-to-even to an integer. -/
def roundEven (x : ℚ) : ℤ :=
  if x - ⌊x⌋ < 1 / 2 then ⌊x⌋
  else if 1 / 2 < x - ⌊x⌋ then ⌊x⌋ + 1
  else if ⌊x⌋ % 2 = 0 then ⌊x⌋ else ⌊x⌋ + 1

/-- `.round(2)`: numpy rounding at two decimal places. -/
def round2 (x : ℚ) : ℚ :=
  (roundEven (x * 100) : ℚ) / 100

/-- The per-row update the ranking stage applies, ranking against the
signal column of `rows`. -/
def rankUpd (rows : List Row) (r : Row) : Row :=
  { r with risk_percent :=
      round2 (avgRank (rows.map Row.risk_signal) r.risk_signal /
        ((rows.length : ℚ)) * 100) }

/-- risk_engine.py lines 140-142: `rank(pct=True) * 100` rounded to two
decimals, the rank being taken over the whole frame's `risk_signal`. -/
def addRank (rows : List Row) : List Row :=
  rows.map (rankUpd rows)

/-- `build_features`: merge, indicators, volatility, signal, rank. -/
def buildFeatures (bio : List BioRow) (demo : List DemoRow) (enrol : List EnrolRow) :
    List Row :=
  addRank (((addVolatility ((mergeTables bio demo enrol).map addIndicators)).map addSignal))

/-- A row of the district-level output table. -/
structure DistrictRow where
  state : String
  district : String
  risk_percent : ℚ
deriving DecidableEq, Repr, Inhabited

/-- A row of the state-level output table. -/
structure StateRow where
  state : String
  risk_percent : ℚ
deriving DecidableEq, Repr, Inhabited

/-- Arithmetic mean of a list (pandas `agg(mean)`). -/
def mean (xs : List ℚ) : ℚ :=
  xs.sum / (xs.length : ℚ)

/-- Ascending lexicographic order of (state, district) pairs, the order in
which `groupby(["state","district"])` emits its groups. -/
def pairLE (p q : String × String) : Prop :=
  strLT p.1 q.1 ∨ (p.1 = q.1 ∧ (strLT p.2 q.2 ∨ p.2 = q.2))

instance : DecidableRel pairLE := fun p q => by
  unfold pairLE
  infer_instance

/-- Descending order on the district table's `risk_percent`. -/
def descD (a b : DistrictRow) : Prop :=
  b.risk_percent ≤ a.risk_percent

instance : DecidableRel descD := fun a b => by
  unfold descD
  infer_instance

/-- Descending order on the state table's `risk_percent`. -/
def descS (a b : StateRow) : Prop :=
  b.risk_percent ≤ a.risk_percent

instance : DecidableRel descS := fun a b => by
  unfold descS
  infer_instance

/-- Ascending order on state names. -/
def strLE (a b : String) : Prop :=
  strLT a b ∨ a = b

instance : DecidableRel strLE := fun a b => by
  unfold strLE
  infer_instance

/-- save_outputs, district table: group the feature frame by
(state, district), take the mean of `risk_percent`, sort descending. -/
def districtRisk (df : List Row) : List DistrictRow :=
  ((((df.map regionOf).dedup).insertionSort pairLE).map (fun p =>
    { state := p.1
      district := p.2
      risk_percent := mean ((df.filter (fun r => regionOf r = p)).map Row.risk_percent) })).insertionSort descD

/-- save_outputs, state table: group the district table by state, take
the mean of the district means, sort descending. -/
def stateRisk (dr : List DistrictRow) : List StateRow :=
  ((((dr.map DistrictRow.state).dedup).insertionSort strLE).map (fun s =>
    { state := s
      risk_percent := mean ((dr.filter (fun d => d.state = s)).map DistrictRow.risk_percent) })).insertionSort descS

/-- One engine run: `build_features` followed by `save_outputs`; the pair
of tables the run writes. -/
def runEngine (bio : List BioRow) (demo : List DemoRow) (enrol : List EnrolRow) :
    List DistrictRow × List StateRow :=
  (districtRisk (buildFeatures bio demo enrol),
    stateRisk (districtRisk (buildFeatures bio demo enrol)))

/-- Spec §4.5 wording: the ascending sort of the signal column. -/
def sortedSignals (xs : List ℚ) : List ℚ :=
  xs.insertionSort (fun a b => a ≤ b)

/-- Spec §4.5 wording: the 1-based rank positions the value `x` occupies
in the ascending sort of `xs`. -/
def rankPositions (xs : List ℚ) (x : ℚ) : List ℚ :=
  ((List.range (sortedSignals xs).length).filter
    (fun i => (sortedSignals xs).getD i 0 = x)).map (fun i : ℕ => ((i : ℚ) + 1))

/-- Spec §4.5 wording: percentile rank = averaged rank position divided by
the total count, scaled to 0–100. -/
def specPercentile (xs : List ℚ) (x : ℚ) : ℚ :=
  mean (rankPositions xs x) / ((xs.length : ℚ)) * 100

/-! ### Column-level model of the cleaning stage (clean_data.py) -/

/-- The two failure shapes of the cleaning stage: the explicit
`raise ValueError(...)` of the required-columns check, which reports the
missing columns and the columns actually available, and the pandas
`KeyError` of the final `df[[...]]` selection, which reports only the
labels not found in the frame. -/
inductive CleanError where
  | valueError (missing present : List String)
  | keyError (missing : List String)
deriving DecidableEq, Repr

/-- Assigning a new dataframe column (`df[c] = ...`): appends the name
unless it is already present. -/
def addCol (cols : List String) (c : String) : List String :=
  if cols.contains c then cols else cols ++ [c]

/-- `.str.lower().str.strip()` on one column name: lower-case every
character and drop whitespace from both ends. -/
def lowerTrim (s : String) : String :=
  ⟨(((s.data.map Char.toLower).dropWhile Char.isWhitespace).reverse.dropWhile
      Char.isWhitespace).reverse⟩

/-- `clean_common_columns` at column-name level: lower-case and strip all
names; if a `date` column exists, derive `year` and `month` columns. -/
def cleanCommonCols (cols : List String) : List String :=
  let cs := cols.map lowerTrim
  if cs.contains ("date") then addCol (addCol cs ("year")) ("month") else cs

/-- `df.rename(columns={old: new})`, applied for each mapping entry in
order (clean_data.py renames one entry at a time; its `if old_col in
df.columns` guard is the identity at column-name level whenever the source
column is absent, because renaming an absent label changes nothing, so the
guard is inlined into the pointwise rename). -/
def renameCols (cols : List String) (mapping : List (String × String)) : List String :=
  mapping.foldl (fun cs m => cs.map (fun c => if c = m.1 then m.2 else c)) cols

/-- The required metric columns that are still absent after cleaning and
renaming (clean_data.py `missing = [c for c in required_cols if c not in
df.columns]`). -/
def famMissing (mapping : List (String × String)) (required : List String)
    (cols : List String) : List String :=
  required.filter (fun c => !((renameCols (cleanCommonCols cols) mapping).contains c))

/-- The output-schema labels absent at the final `df[[...]]` selection,
after any derived columns have been assigned. -/
def famNotFound (mapping : List (String × String)) (derived sel : List String)
    (cols : List String) : List String :=
  sel.filter (fun c =>
    !((derived.foldl addCol (renameCols (cleanCommonCols cols) mapping)).contains c))

/-- The shared column-level shape of `process_biometric_data`,
`process_demographic_data` and `process_enrolment_data`: clean, rename the
known API variants, check the family's required metric columns (a failure
raises `ValueError` naming the missing and the available columns), derive
any computed columns, then select the output schema (a missing label there
raises a pandas `KeyError` naming only the absent labels). -/
def processFamilyCols (mapping : List (String × String))
    (required derived sel : List String) (cols : List String) :
    Except CleanError (List String) :=
  if (famMissing mapping required cols).isEmpty then
    (if (famNotFound mapping derived sel cols).isEmpty then .ok sel
     else .error (.keyError (famNotFound mapping derived sel cols)))
  else .error (.valueError (famMissing mapping required cols)
    (renameCols (cleanCommonCols cols) mapping))

/-- The biometric column-name variants (clean_data.py lines 89-102). -/
def bioColMap : List (String × String) :=
  [("bio age 5 17", "bio_5_17"), ("bio_age_5_17", "bio_5_17"),
   ("biometric_age_5_17", "bio_5_17"), ("age_5_17", "bio_5_17"),
   ("bio age 17", "bio_17_plus"), ("bio_age_17", "bio_17_plus"),
   ("bio_age_17_", "bio_17_plus"), ("biometric_age_17", "bio_17_plus"),
   ("age_17_above", "bio_17_plus")]

/-- `process_biometric_data` at column level. -/
def processBiometricCols (cols : List String) : Except CleanError (List String) :=
  processFamilyCols bioColMap ["bio_5_17", "bio_17_plus"] []
    ["state", "district", "year", "month", "bio_5_17", "bio_17_plus"] cols

/-- The demographic column-name variants (clean_data.py lines 161-172). -/
def demoColMap : List (String × String) :=
  [("demo age 5 17", "demo_5_17"), ("demo_age_5_17", "demo_5_17"),
   ("demographic_age_5_17", "demo_5_17"),
   ("demo age 17", "demo_17_plus"), ("demo_age_17", "demo_17_plus"),
   ("demo_age_17_", "demo_17_plus"), ("demographic_age_17", "demo_17_plus")]

/-- `process_demographic_data` at column level. -/
def processDemographicCols (cols : List String) : Except CleanError (List String) :=
  processFamilyCols demoColMap ["demo_5_17", "demo_17_plus"] []
    ["state", "district", "year", "month", "demo_5_17", "demo_17_plus"] cols

/-- The enrolment column-name variants (clean_data.py lines 236-249). -/
def enrolColMap : List (String × String) :=
  [("age 0 5", "enrol_0_5"), ("age_0_5", "enrol_0_5"),
   ("age 5 17", "enrol_5_17"), ("age_5_17", "enrol_5_17"),
   ("age 18 greater", "enrol_18_plus"), ("age_18_greater", "enrol_18_plus"),
   ("age_18+", "enrol_18_plus")]

/-- `process_enrolment_data` at column level: after the check it derives
`enrolment_count` as the sum of the three age bands, then selects. -/
def processEnrolmentCols (cols : List String) : Except CleanError (List String) :=
  processFamilyCols enrolColMap ["enrol_0_5", "enrol_5_17", "enrol_18_plus"]
    ["enrolment_count"]
    ["state", "district", "year", "month", "enrol_0_5", "enrol_5_17",
      "enrol_18_plus", "enrolment_count"] cols

/-! ### Concrete input tables used as witnesses -/

/-- First region of the spec §8 end-to-end scenario. -/
def e2eKey1 : Key :=
  { state := "S", district := "D1", year := 2024, month := 1 }

/-- Second region of the spec §8 end-to-end scenario. -/
def e2eKey2 : Key :=
  { state := "S", district := "D2", year := 2024, month := 1 }

/-- Biometric table of the end-to-end scenario: counts (5,2) and (1,1). -/
def e2eBio : List BioRow :=
  [{ key := e2eKey1, bio_5_17 := 5, bio_17_plus := 2 },
   { key := e2eKey2, bio_5_17 := 1, bio_17_plus := 1 }]

/-- Enrolment table of the end-to-end scenario: both regions enrol 10. -/
def e2eEnrol : List EnrolRow :=
  [{ key := e2eKey1, enrolment_count := 10 },
   { key := e2eKey2, enrolment_count := 10 }]

/-- One region over two consecutive months (volatility witness). -/
def twoKeyA : Key :=
  { state := "S", district := "D", year := 2024, month := 1 }

/-- Second month of the two-month region. -/
def twoKeyB : Key :=
  { state := "S", district := "D", year := 2024, month := 2 }

/-- Biometric table of the two-month scenario. -/
def twoBio : List BioRow :=
  [{ key := twoKeyA, bio_5_17 := 5, bio_17_plus := 2 },
   { key := twoKeyB, bio_5_17 := 3, bio_17_plus := 1 }]

/-- Enrolment table of the two-month scenario. -/
def twoEnrol : List EnrolRow :=
  [{ key := twoKeyA, enrolment_count := 10 },
   { key := twoKeyB, enrolment_count := 0 }]

/-! ### Order facts for the sort relations -/

instance : IsTrans Key keyLE := by
  constructor
  have ltr : ∀ x y z : String, strLT x y → strLT y z → strLT x z := by
    intro x y z h1 h2
    unfold strLT at h1 h2 ⊢
    rw [List.lt_iff_lex_lt] at h1 h2 ⊢
    exact trans_of (List.Lex (· < ·)) h1 h2
  intro a b c hab hbc
  unfold keyLE at hab hbc ⊢
  rcases hab with h1 | ⟨e1, h1⟩ <;> rcases hbc with h2 | ⟨e2, h2⟩
  · exact Or.inl (ltr _ _ _ h1 h2)
  · exact Or.inl (e2 ▸ h1)
  · exact Or.inl (e1 ▸ h2)
  · refine Or.inr ⟨e1.trans e2, ?_⟩
    rcases h1 with h1 | ⟨f1, h1⟩ <;> rcases h2 with h2 | ⟨f2, h2⟩
    · exact Or.inl (ltr _ _ _ h1 h2)
    · exact Or.inl (f2 ▸ h1)
    · exact Or.inl (f1 ▸ h2)
    · refine Or.inr ⟨f1.trans f2, ?_⟩
      rcases h1 with h1 | ⟨g1, h1⟩ <;> rcases h2 with h2 | ⟨g2, h2⟩ <;> omega

instance : IsTotal Key keyLE := by
  constructor
  have ltri : ∀ x y : String, strLT x y ∨ x = y ∨ strLT y x := by
    intro x y
    have h : List.Lex (· < ·) x.data y.data ∨ x.data = y.data ∨
        List.Lex (· < ·) y.data x.data :=
      trichotomous_of (List.Lex (· < ·)) x.data y.data
    rcases h with h | h | h
    · refine Or.inl ?_
      unfold strLT
      rw [List.lt_iff_lex_lt]
      exact h
    · refine Or.inr (Or.inl ?_)
      cases x
      cases y
      exact congrArg String.mk h
    · refine Or.inr (Or.inr ?_)
      unfold strLT
      rw [List.lt_iff_lex_lt]
      exact h
  intro a b
  unfold keyLE
  rcases ltri a.state b.state with h | h | h
  · exact Or.inl (Or.inl h)
  · rcases ltri a.district b.district with h2 | h2 | h2
    · exact Or.inl (Or.inr ⟨h, Or.inl h2⟩)
    · rcases lt_trichotomy a.year b.year with h3 | h3 | h3
      · exact Or.inl (Or.inr ⟨h, Or.inr ⟨h2, Or.inl h3⟩⟩)
      · rcases le_total a.month b.month with h4 | h4
        · exact Or.inl (Or.inr ⟨h, Or.inr ⟨h2, Or.inr ⟨h3, h4⟩⟩⟩)
        · exact Or.inr (Or.inr ⟨h.symm, Or.inr ⟨h2.symm, Or.inr ⟨h3.symm, h4⟩⟩⟩)
      · exact Or.inr (Or.inr ⟨h.symm, Or.inr ⟨h2.symm, Or.inl h3⟩⟩)
    · exact Or.inr (Or.inr ⟨h.symm, Or.inl h2⟩)
  · exact Or.inr (Or.inl h)

instance : IsTrans Row rowLE := by
  constructor
  intro a b c hab hbc
  exact trans_of keyLE hab hbc

instance : IsTotal Row rowLE := by
  constructor
  intro a b
  exact total_of keyLE a.key b.key

instance : IsTrans (String × String) pairLE := by
  constructor
  have ltr : ∀ x y z : String, strLT x y → strLT y z → strLT x z := by
    intro x y z h1 h2
    unfold strLT at h1 h2 ⊢
    rw [List.lt_iff_lex_lt] at h1 h2 ⊢
    exact trans_of (List.Lex (· < ·)) h1 h2
  intro a b c hab hbc
  unfold pairLE at hab hbc ⊢
  rcases hab with h1 | ⟨e1, h1⟩ <;> rcases hbc with h2 | ⟨e2, h2⟩
  · exact Or.inl (ltr _ _ _ h1 h2)
  · exact Or.inl (e2 ▸ h1)
  · exact Or.inl (e1 ▸ h2)
  · refine Or.inr ⟨e1.trans e2, ?_⟩
    rcases h1 with h1 | h1 <;> rcases h2 with h2 | h2
    · exact Or.inl (ltr _ _ _ h1 h2)
    · exact Or.inl (h2 ▸ h1)
    · exact Or.inl (h1 ▸ h2)
    · exact Or.inr (h1.trans h2)

instance : IsTotal (String × String) pairLE := by
  constructor
  have ltri : ∀ x y : String, strLT x y ∨ x = y ∨ strLT y x := by
    intro x y
    have h : List.Lex (· < ·) x.data y.data ∨ x.data = y.data ∨
        List.Lex (· < ·) y.data x.data :=
      trichotomous_of (List.Lex (· < ·)) x.data y.data
    rcases h with h | h | h
    · refine Or.inl ?_
      unfold strLT
      rw [List.lt_iff_lex_lt]
      exact h
    · refine Or.inr (Or.inl ?_)
      cases x
      cases y
      exact congrArg String.mk h
    · refine Or.inr (Or.inr ?_)
      unfold strLT
      rw [List.lt_iff_lex_lt]
      exact h
  intro a b
  unfold pairLE
  rcases ltri a.1 b.1 with h | h | h
  · exact Or.inl (Or.inl h)
  · rcases ltri a.2 b.2 with h2 | h2 | h2
    · exact Or.inl (Or.inr ⟨h, Or.inl h2⟩)
    · exact Or.inl (Or.inr ⟨h, Or.inr h2⟩)
    · exact Or.inr (Or.inr ⟨h.symm, Or.inl h2⟩)
  · exact Or.inr (Or.inl h)

instance : IsTrans DistrictRow descD := by
  constructor
  intro a b c hab hbc
  exact le_trans hbc hab

instance : IsTotal DistrictRow descD := by
  constructor
  intro a b
  exact (le_total b.risk_percent a.risk_percent).imp id id

instance : IsTrans StateRow descS := by
  constructor
  intro a b c hab hbc
  exact le_trans hbc hab

instance : IsTotal StateRow descS := by
  constructor
  intro a b
  exact (le_total b.risk_percent a.risk_percent).imp id id

instance : IsTrans String strLE := by
  constructor
  have ltr : ∀ x y z : String, strLT x y → strLT y z → strLT x z := by
    intro x y z h1 h2
    unfold strLT at h1 h2 ⊢
    rw [List.lt_iff_lex_lt] at h1 h2 ⊢
    exact trans_of (List.Lex (· < ·)) h1 h2
  intro a b c hab hbc
  unfold strLE at hab hbc ⊢
  rcases hab with h1 | h1 <;> rcases hbc with h2 | h2
  · exact Or.inl (ltr _ _ _ h1 h2)
  · exact Or.inl (h2 ▸ h1)
  · exact Or.inl (h1 ▸ h2)
  · exact Or.inr (h1.trans h2)

instance : IsTotal String strLE := by
  constructor
  have ltri : ∀ x y : String, strLT x y ∨ x = y ∨ strLT y x := by
    intro x y
    have h : List.Lex (· < ·) x.data y.data ∨ x.data = y.data ∨
        List.Lex (· < ·) y.data x.data :=
      trichotomous_of (List.Lex (· < ·)) x.data y.data
    rcases h with h | h | h
    · refine Or.inl ?_
      unfold strLT
      rw [List.lt_iff_lex_lt]
      exact h
    · refine Or.inr (Or.inl ?_)
      cases x
      cases y
      exact congrArg String.mk h
    · refine Or.inr (Or.inr ?_)
      unfold strLT
      rw [List.lt_iff_lex_lt]
      exact h
  intro a b
  unfold strLE
  rcases ltri a b with h | h | h
  · exact Or.inl (Or.inl h)
  · exact Or.inl (Or.inr h)
  · exact Or.inr (Or.inl h)

/-! ### The aggregated right tables are uniquely keyed, so `find?` models
the left merge exactly -/

theorem find?_agg {β : Type} (g : Key → β) (keyOf : β → Key)
    (hg : ∀ k, keyOf (g k) = k) (k : Key) (L : List Key) :
    (L.map g).find? (fun r => keyOf r = k) = if k ∈ L then some (g k) else none := by
  induction L with
  | nil => simp
  | cons a L ih =>
    by_cases h : a = k
    · subst h
      rw [List.map_cons, List.find?_cons_of_pos]
      · simp
      · simp [hg]
    · rw [List.map_cons, List.find?_cons_of_neg, ih]
      · have hne : ¬ k = a := fun e => h e.symm
        simp [List.mem_cons, hne]
      · simp [hg, h]

theorem sumAt_eq_zero_of_not_mem {α : Type} (keyOf : α → Key) (f : α → ℚ)
    (rows : List α) (k : Key) (h : k ∉ rows.map keyOf) :
    sumAt keyOf f rows k = 0 := by
  unfold sumAt
  have : rows.filter (fun r => keyOf r = k) = [] := by
    rw [List.filter_eq_nil_iff]
    intro a ha
    simp only [decide_eq_true_eq]
    intro hk
    exact h (hk ▸ List.mem_map_of_mem keyOf ha)
  rw [this]
  simp

/-! ### Shape of the merged table -/

theorem mergeTables_map_key (bio : List BioRow) (demo : List DemoRow) (enrol : List EnrolRow) :
    (mergeTables bio demo enrol).map Row.key = (bio.map BioRow.key).dedup := by
  unfold mergeTables aggBio
  rw [List.map_map, List.map_map]
  exact List.map_id _

theorem mem_mergeTables {bio : List BioRow} {demo : List DemoRow} {enrol : List EnrolRow}
    {r : Row} (hr : r ∈ mergeTables bio demo enrol) :
    r.key ∈ bio.map BioRow.key ∧
    r.bio_5_17 = sumAt BioRow.key BioRow.bio_5_17 bio r.key ∧
    r.bio_17_plus = sumAt BioRow.key BioRow.bio_17_plus bio r.key ∧
    r.demo_5_17 = sumAt DemoRow.key DemoRow.demo_5_17 demo r.key ∧
    r.demo_17_plus = sumAt DemoRow.key DemoRow.demo_17_plus demo r.key ∧
    r.enrolment_count = sumAt EnrolRow.key EnrolRow.enrolment_count enrol r.key := by
  unfold mergeTables at hr
  obtain ⟨b, hb, rfl⟩ := List.mem_map.1 hr
  unfold aggBio at hb
  obtain ⟨k, hk, rfl⟩ := List.mem_map.1 hb
  rw [List.mem_dedup] at hk
  have hd := find?_agg
    (fun k => ({ key := k
                 demo_5_17 := sumAt DemoRow.key DemoRow.demo_5_17 demo k
                 demo_17_plus := sumAt DemoRow.key DemoRow.demo_17_plus demo k } : DemoRow))
    DemoRow.key (fun _ => rfl) k ((demo.map DemoRow.key).dedup)
  have he := find?_agg
    (fun k => ({ key := k
                 enrolment_count := sumAt EnrolRow.key EnrolRow.enrolment_count enrol k } : EnrolRow))
    EnrolRow.key (fun _ => rfl) k ((enrol.map EnrolRow.key).dedup)
  refine ⟨hk, rfl, rfl, ?_, ?_, ?_⟩
  · show (match (aggDemo demo).find? (fun r => r.key = k) with
      | some d => d.demo_5_17
      | none => 0) = _
    rw [show aggDemo demo = ((demo.map DemoRow.key).dedup).map
        (fun k => ({ key := k
                     demo_5_17 := sumAt DemoRow.key DemoRow.demo_5_17 demo k
                     demo_17_plus := sumAt DemoRow.key DemoRow.demo_17_plus demo k } : DemoRow))
      from rfl, hd]
    by_cases hmem : k ∈ (demo.map DemoRow.key).dedup
    · simp [hmem]
    · rw [List.mem_dedup] at hmem
      simp [List.mem_dedup, hmem, sumAt_eq_zero_of_not_mem DemoRow.key DemoRow.demo_5_17 demo k hmem]
  · show (match (aggDemo demo).find? (fun r => r.key = k) with
      | some d => d.demo_17_plus
      | none => 0) = _
    rw [show aggDemo demo = ((demo.map DemoRow.key).dedup).map
        (fun k => ({ key := k
                     demo_5_17 := sumAt DemoRow.key DemoRow.demo_5_17 demo k
                     demo_17_plus := sumAt DemoRow.key DemoRow.demo_17_plus demo k } : DemoRow))
      from rfl, hd]
    by_cases hmem : k ∈ (demo.map DemoRow.key).dedup
    · simp [hmem]
    · rw [List.mem_dedup] at hmem
      simp [List.mem_dedup, hmem, sumAt_eq_zero_of_not_mem DemoRow.key DemoRow.demo_17_plus demo k hmem]
  · show (match (aggEnrol enrol).find? (fun r => r.key = k) with
      | some e => e.enrolment_count
      | none => 0) = _
    rw [show aggEnrol enrol = ((enrol.map EnrolRow.key).dedup).map
        (fun k => ({ key := k
                     enrolment_count := sumAt EnrolRow.key EnrolRow.enrolment_count enrol k } : EnrolRow))
      from rfl, he]
    by_cases hmem : k ∈ (enrol.map EnrolRow.key).dedup
    · simp [hmem]
    · rw [List.mem_dedup] at hmem
      simp [List.mem_dedup, hmem,
        sumAt_eq_zero_of_not_mem EnrolRow.key EnrolRow.enrolment_count enrol k hmem]

/-! ### Tracing a feature row back to its merged row -/

theorem mem_addVolatility {rows : List Row} {t : Row} (ht : t ∈ addVolatility rows) :
    ∃ s ∈ rows, ∃ bm dm, t = setMoms s bm dm := by
  simp only [addVolatility] at ht
  rw [List.mem_flatMap] at ht
  obtain ⟨p, hp, ht⟩ := ht
  obtain ⟨q, hq, rfl⟩ := List.mem_map.1 ht
  have h1 := (List.of_mem_zip hq).1
  have h2 := List.mem_filter.1 h1
  have h3 := (List.mem_insertionSort rowLE).1 h2.1
  exact ⟨q.1, h3, q.2.1, q.2.2, rfl⟩

theorem mem_buildFeatures_core {bio : List BioRow} {demo : List DemoRow}
    {enrol : List EnrolRow} {r : Row} (hr : r ∈ buildFeatures bio demo enrol) :
    ∃ m ∈ mergeTables bio demo enrol,
      r.key = m.key ∧ r.bio_5_17 = m.bio_5_17 ∧ r.bio_17_plus = m.bio_17_plus ∧
      r.demo_5_17 = m.demo_5_17 ∧ r.demo_17_plus = m.demo_17_plus ∧
      r.enrolment_count = m.enrolment_count ∧
      r.total_bio_updates = r.bio_5_17 + r.bio_17_plus ∧
      r.total_demo_updates = r.demo_5_17 + r.demo_17_plus ∧
      r.bio_update_rate = (r.bio_5_17 + r.bio_17_plus) / (r.enrolment_count + 1) ∧
      r.demo_update_rate = (r.demo_5_17 + r.demo_17_plus) / (r.enrolment_count + 1) ∧
      r.bio_age_skew = r.bio_5_17 / (r.bio_17_plus + 1) ∧
      r.demo_age_skew = r.demo_5_17 / (r.demo_17_plus + 1) ∧
      r.risk_signal = 0.30 * r.bio_update_rate + 0.25 * r.demo_update_rate +
        0.20 * r.bio_age_skew + 0.15 * r.demo_age_skew +
        0.10 * (r.bio_mom_change + r.demo_mom_change) := by
  unfold buildFeatures addRank at hr
  obtain ⟨s, hs, rfl⟩ := List.mem_map.1 hr
  obtain ⟨t, ht, rfl⟩ := List.mem_map.1 hs
  obtain ⟨u, hu, bm, dm, rfl⟩ := mem_addVolatility ht
  obtain ⟨m, hm, rfl⟩ := List.mem_map.1 hu
  exact ⟨m, hm, by simp [addIndicators, addSignal, setMoms, rankUpd]⟩

theorem addRank_map_risk_signal (l : List Row) :
    (addRank l).map Row.risk_signal = l.map Row.risk_signal := by
  unfold addRank
  rw [List.map_map]
  rfl

theorem length_addRank (l : List Row) : (addRank l).length = l.length := by
  unfold addRank
  rw [List.length_map]

theorem mem_buildFeatures_rank {bio : List BioRow} {demo : List DemoRow}
    {enrol : List EnrolRow} {r : Row} (hr : r ∈ buildFeatures bio demo enrol) :
    r.risk_percent = round2 (avgRank ((buildFeatures bio demo enrol).map Row.risk_signal)
      r.risk_signal / (((buildFeatures bio demo enrol).length : ℚ)) * 100) := by
  rw [show buildFeatures bio demo enrol =
      addRank ((addVolatility ((mergeTables bio demo enrol).map addIndicators)).map addSignal)
    from rfl] at hr ⊢
  rw [addRank_map_risk_signal, length_addRank]
  unfold addRank at hr
  obtain ⟨s, hs, rfl⟩ := List.mem_map.1 hr
  rfl

/-! ### The volatility stage, group by group -/

theorem length_momChanges (l : List ℚ) : (momChanges l).length = l.length := by
  cases l with
  | nil => rfl
  | cons a t =>
    simp only [momChanges, List.length_cons, List.length_map, List.length_zip,
      List.tail_cons, List.length_tail]
    omega

theorem momChanges_get_zero (l : List ℚ) (h : 0 < (momChanges l).length) :
    (momChanges l).get ⟨0, h⟩ = 0 := by
  cases l with
  | nil => simp [momChanges] at h
  | cons a t => rfl

theorem momChanges_get_succ (l : List ℚ) (i : ℕ) (h1 : i < l.length)
    (h2 : i + 1 < l.length) (h3 : i + 1 < (momChanges l).length) :
    (momChanges l).get ⟨i + 1, h3⟩ =
      step (l.get ⟨i, h1⟩) (l.get ⟨i + 1, h2⟩) := by
  cases l with
  | nil => simp at h2
  | cons a t =>
    simp only [momChanges, List.tail_cons, List.get_eq_getElem, List.getElem_cons_succ]
    have hz : i < ((a :: t).zip t).length := by
      simp only [List.length_cons] at h2
      simp only [List.length_zip, List.length_cons]
      omega
    rw [List.getElem_map, List.getElem_zip]

theorem addVolatility_eq (rows : List Row) :
    addVolatility rows =
      (((rows.insertionSort rowLE).map regionOf).dedup).flatMap (volBlock rows) := rfl

theorem mem_volBlock_region {rows : List Row} {p : String × String} {t : Row}
    (ht : t ∈ volBlock rows p) : regionOf t = p := by
  unfold volBlock at ht
  obtain ⟨q, hq, rfl⟩ := List.mem_map.1 ht
  have h1 := (List.of_mem_zip hq).1
  have h2 := List.of_mem_filter h1
  simp only [decide_eq_true_eq] at h2
  simpa [regionOf, setMoms] using h2

theorem filter_volBlock (rows : List Row) (p q : String × String) :
    (volBlock rows q).filter (fun r => regionOf r = p) =
      if q = p then volBlock rows q else [] := by
  by_cases h : q = p
  · subst h
    rw [if_pos rfl]
    apply List.filter_eq_self.2
    intro a ha
    simp [mem_volBlock_region ha]
  · rw [if_neg h]
    apply List.filter_eq_nil_iff.mpr
    intro a ha
    simp [mem_volBlock_region ha, h]

theorem flatMap_if_eq {α β : Type} [DecidableEq α] (f : α → List β) (p : α)
    (L : List α) (hnd : L.Nodup) :
    (L.flatMap (fun q => if q = p then f q else [])) = if p ∈ L then f p else [] := by
  induction L with
  | nil => simp
  | cons a L ih =>
    rw [List.flatMap_cons, ih (List.nodup_cons.1 hnd).2]
    by_cases h : a = p
    · subst h
      have ha : a ∉ L := (List.nodup_cons.1 hnd).1
      simp [ha]
    · have hne : ¬ p = a := fun e => h e.symm
      simp [h, hne, List.mem_cons]

theorem addVolatility_filter (rows : List Row) (p : String × String) :
    (addVolatility rows).filter (fun r => regionOf r = p) = volBlock rows p := by
  rw [addVolatility_eq, List.filter_flatMap]
  have hpt : ∀ q : String × String,
      (volBlock rows q).filter (fun r => regionOf r = p) =
        if q = p then (fun _ : String × String => volBlock rows p) q else [] := by
    intro q
    rw [filter_volBlock]
    by_cases h : q = p
    · subst h
      simp
    · simp [h]
  simp only [hpt]
  rw [flatMap_if_eq (fun _ => volBlock rows p) p _ (List.nodup_dedup _)]
  by_cases hp : p ∈ ((rows.insertionSort rowLE).map regionOf).dedup
  · simp [hp]
  · rw [if_neg hp]
    have hg : sortedGroup rows p = [] := by
      rw [sortedGroup, List.filter_eq_nil_iff]
      intro a ha hc
      apply hp
      rw [List.mem_dedup]
      simp only [decide_eq_true_eq] at hc
      exact hc ▸ List.mem_map_of_mem regionOf ha
    unfold volBlock
    rw [hg]
    simp [momChanges]

theorem filter_map_of_pres (f : Row → Row) (hf : ∀ r, regionOf (f r) = regionOf r)
    (l : List Row) (p : String × String) :
    (l.map f).filter (fun r => regionOf r = p) =
      (l.filter (fun r => regionOf r = p)).map f := by
  rw [List.filter_map]
  congr 1
  apply List.filter_congr
  intro a _
  simp [Function.comp, hf]

theorem volBlock_length (rows : List Row) (p : String × String) :
    (volBlock rows p).length = (sortedGroup rows p).length := by
  unfold volBlock
  simp only [List.length_map, List.length_zip, length_momChanges]
  omega

theorem volBlock_get (rows : List Row) (p : String × String) (i : ℕ)
    (h : i < (volBlock rows p).length) (hg : i < (sortedGroup rows p).length)
    (hb : i < (momChanges ((sortedGroup rows p).map Row.bio_update_rate)).length)
    (hd : i < (momChanges ((sortedGroup rows p).map Row.demo_update_rate)).length) :
    (volBlock rows p).get ⟨i, h⟩ =
      setMoms ((sortedGroup rows p).get ⟨i, hg⟩)
        ((momChanges ((sortedGroup rows p).map Row.bio_update_rate)).get ⟨i, hb⟩)
        ((momChanges ((sortedGroup rows p).map Row.demo_update_rate)).get ⟨i, hd⟩) := by
  unfold volBlock
  simp only [List.get_eq_getElem]
  rw [List.getElem_map, List.getElem_zip, List.getElem_zip]

theorem volBlock_map_key (rows : List Row) (p : String × String) :
    (volBlock rows p).map Row.key = (sortedGroup rows p).map Row.key := by
  unfold volBlock
  have h1 : ∀ (L : List (Row × ℚ × ℚ)),
      (L.map (fun q => setMoms q.1 q.2.1 q.2.2)).map Row.key = L.map (fun q => q.1.key) := by
    intro L
    rw [List.map_map]
    rfl
  have h2 : ∀ (L : List (Row × ℚ × ℚ)),
      L.map (fun q => q.1.key) = (L.map Prod.fst).map Row.key := by
    intro L
    rw [List.map_map]
    rfl
  rw [h1, h2, List.map_fst_zip]
  simp only [List.length_zip, length_momChanges, List.length_map]
  omega

/-- Filtering the finished feature frame to one (state, district) region
yields exactly the volatility block of that region, transported through
the (key- and rate-preserving) signal and rank stages. -/
theorem buildFeatures_filter_spec (bio : List BioRow) (demo : List DemoRow)
    (enrol : List EnrolRow) (p : String × String) :
    ∃ f : Row → Row,
      (∀ r, (f r).key = r.key ∧ (f r).bio_mom_change = r.bio_mom_change ∧
        (f r).demo_mom_change = r.demo_mom_change ∧
        (f r).bio_update_rate = r.bio_update_rate ∧
        (f r).demo_update_rate = r.demo_update_rate) ∧
      (buildFeatures bio demo enrol).filter (fun r => regionOf r = p) =
        (volBlock ((mergeTables bio demo enrol).map addIndicators) p).map f := by
  refine ⟨fun r =>
    rankUpd ((addVolatility ((mergeTables bio demo enrol).map addIndicators)).map addSignal)
      (addSignal r), ?_, ?_⟩
  · intro r
    simp [addSignal, rankUpd]
  · rw [show buildFeatures bio demo enrol =
        ((addVolatility ((mergeTables bio demo enrol).map addIndicators)).map
          addSignal).map
          (rankUpd ((addVolatility ((mergeTables bio demo enrol).map addIndicators)).map
            addSignal))
      from rfl]
    rw [filter_map_of_pres
        (rankUpd ((addVolatility ((mergeTables bio demo enrol).map addIndicators)).map
          addSignal)) (fun r => rfl),
      filter_map_of_pres addSignal (fun r => rfl)]
    rw [addVolatility_filter, List.map_map]
    rfl

/-! ### Monotonicity of the ranking pipeline -/

theorem count_lt_add_count_eq_le (xs : List ℚ) {a b : ℚ} (h : b < a) :
    (xs.filter (fun y => y < b)).length + (xs.filter (fun y => y = b)).length ≤
      (xs.filter (fun y => y < a)).length := by
  induction xs with
  | nil => simp
  | cons x xs ih =>
    simp only [List.filter_cons]
    by_cases h1 : x < b
    · have h2 : ¬ x = b := ne_of_lt h1
      have h3 : x < a := lt_trans h1 h
      simp [h1, h2, h3]
      omega
    · by_cases h2 : x = b
      · have h3 : x < a := lt_of_le_of_lt (le_of_eq h2) h
        subst h2
        simp [h1, h3]
        omega
      · by_cases h3 : x < a
        · simp [h1, h2, h3]
          omega
        · simp [h1, h2, h3]
          omega

theorem avgRank_mono (xs : List ℚ) {a b : ℚ} (h : b < a) :
    avgRank xs b ≤ avgRank xs a := by
  unfold avgRank
  have hc := count_lt_add_count_eq_le xs h
  have hc2 : ((xs.filter (fun y => y < b)).length : ℚ) +
      ((xs.filter (fun y => y = b)).length : ℚ) ≤
      ((xs.filter (fun y => y < a)).length : ℚ) := by
    exact_mod_cast hc
  have hEb : (0 : ℚ) ≤ ((xs.filter (fun y => y = b)).length : ℚ) := by positivity
  have hEa : (0 : ℚ) ≤ ((xs.filter (fun y => y = a)).length : ℚ) := by positivity
  linarith

theorem le_roundEven (x : ℚ) : ⌊x⌋ ≤ roundEven x := by
  unfold roundEven
  split_ifs <;> omega

theorem roundEven_le (x : ℚ) : roundEven x ≤ ⌊x⌋ + 1 := by
  unfold roundEven
  split_ifs <;> omega

theorem roundEven_mono {x y : ℚ} (h : x ≤ y) : roundEven x ≤ roundEven y := by
  have hf : ⌊x⌋ ≤ ⌊y⌋ := Int.floor_le_floor h
  rcases lt_or_eq_of_le hf with hlt | heq
  · calc roundEven x ≤ ⌊x⌋ + 1 := roundEven_le x
    _ ≤ ⌊y⌋ := by omega
    _ ≤ roundEven y := le_roundEven y
  · unfold roundEven
    rw [← heq]
    have h2 : x - ((⌊x⌋ : ℤ) : ℚ) ≤ y - ((⌊x⌋ : ℤ) : ℚ) := by linarith
    split_ifs <;> first | omega | linarith

theorem round2_mono {x y : ℚ} (h : x ≤ y) : round2 x ≤ round2 y := by
  unfold round2
  have h1 : roundEven (x * 100) ≤ roundEven (y * 100) := roundEven_mono (by linarith)
  have h2 : ((roundEven (x * 100) : ℚ)) ≤ ((roundEven (y * 100) : ℚ)) := by
    exact_mod_cast h1
  linarith

/-! ### The averaged rank positions of a sorted list -/

theorem sorted_decomp (x : ℚ) (l : List ℚ) (hs : l.Sorted (fun a b => a ≤ b)) :
    l = l.filter (fun y => y < x) ++
      (l.filter (fun y => y = x) ++ l.filter (fun y => x < y)) := by
  induction l with
  | nil => simp
  | cons a t ih =>
    have ht : t.Sorted (fun a b => a ≤ b) := hs.of_cons
    have hall : ∀ b ∈ t, a ≤ b := List.rel_of_sorted_cons hs
    rcases lt_trichotomy a x with h | h | h
    · have h1 : ¬ a = x := ne_of_lt h
      have h2 : ¬ x < a := not_lt.2 (le_of_lt h)
      rw [List.filter_cons_of_pos (by simpa using h),
        List.filter_cons_of_neg (by simpa using h1),
        List.filter_cons_of_neg (by simpa using h2),
        List.cons_append]
      exact congrArg (List.cons a) (ih ht)
    · subst h
      have hlt : t.filter (fun y => y < a) = [] := by
        rw [List.filter_eq_nil_iff]
        intro b hb
        simp only [decide_eq_true_eq]
        exact not_lt.2 (hall b hb)
      rw [List.filter_cons_of_neg (by simp),
        List.filter_cons_of_pos (by simp),
        List.filter_cons_of_neg (by simp), hlt]
      have h2 := ih ht
      rw [hlt, List.nil_append] at h2
      rw [List.nil_append, List.cons_append]
      exact congrArg (List.cons a) h2
    · have e1 : (a :: t).filter (fun y => y < x) = [] := by
        rw [List.filter_eq_nil_iff]
        intro b hb
        simp only [decide_eq_true_eq]
        rcases List.mem_cons.1 hb with rfl | hb
        · exact not_lt.2 (le_of_lt h)
        · exact not_lt.2 (le_of_lt (lt_of_lt_of_le h (hall b hb)))
      have e2 : (a :: t).filter (fun y => y = x) = [] := by
        rw [List.filter_eq_nil_iff]
        intro b hb
        simp only [decide_eq_true_eq]
        rcases List.mem_cons.1 hb with rfl | hb
        · exact fun e => absurd (e ▸ h) (lt_irrefl x)
        · exact fun e => absurd (lt_of_lt_of_le h (hall b hb)) (e ▸ lt_irrefl x)
      have e3 : (a :: t).filter (fun y => x < y) = a :: t := by
        apply List.filter_eq_self.2
        intro b hb
        simp only [decide_eq_true_eq]
        rcases List.mem_cons.1 hb with rfl | hb
        · exact h
        · exact lt_of_lt_of_le h (hall b hb)
      rw [e1, e2, e3]
      simp

theorem getD_decomp (A B C : List ℚ) (x : ℚ) (hA : ∀ y ∈ A, y < x)
    (hB : ∀ y ∈ B, y = x) (hC : ∀ y ∈ C, x < y) (i : ℕ)
    (hi : i < (A ++ (B ++ C)).length) :
    ((A ++ (B ++ C)).getD i 0 = x) ↔ (A.length ≤ i ∧ i < A.length + B.length) := by
  rw [List.getD_eq_getElem _ _ hi]
  rcases Nat.lt_or_ge i A.length with h | h
  · rw [List.getElem_append_left h]
    have hmem := hA _ (A.getElem_mem h)
    constructor
    · intro he
      exact absurd he (ne_of_lt hmem)
    · intro hc
      omega
  · rw [List.getElem_append_right h]
    have hi2 : i - A.length < (B ++ C).length := by
      simp only [List.length_append] at hi ⊢
      omega
    rcases Nat.lt_or_ge (i - A.length) B.length with h2 | h2
    · rw [List.getElem_append_left h2]
      have hmem := hB _ (B.getElem_mem h2)
      constructor
      · intro _
        omega
      · intro _
        exact hmem
    · rw [List.getElem_append_right h2]
      have hi3 : i - A.length - B.length < C.length := by
        simp only [List.length_append] at hi ⊢
        omega
      have hmem := hC _ (C.getElem_mem hi3)
      constructor
      · intro he
        exact absurd he.symm (ne_of_lt hmem)
      · intro hc
        omega

theorem sum_range_shift (b a : ℕ) :
    ((List.range' a b).map (fun i : ℕ => ((i : ℚ) + 1))).sum =
      b * a + (b * (b + 1)) / 2 := by
  induction b generalizing a with
  | zero => simp
  | succ n ih =>
    have hr : List.range' a (n + 1) = a :: List.range' (a + 1) n := by
      rw [List.range'_succ]
    rw [hr, List.map_cons, List.sum_cons, ih]
    push_cast
    ring

theorem filter_range_getD_aux (A B C : List ℚ) (x : ℚ) (hA : ∀ y ∈ A, y < x)
    (hB : ∀ y ∈ B, y = x) (hC : ∀ y ∈ C, x < y) :
    (List.range (A ++ (B ++ C)).length).filter
        (fun i => (A ++ (B ++ C)).getD i 0 = x) =
      List.range' A.length B.length := by
  have nd2 : (List.range' A.length B.length).Nodup :=
    (List.pairwise_lt_range' _ _).imp (fun h => ne_of_lt h)
  have hs1 : ((List.range (A ++ (B ++ C)).length).filter
      (fun i => (A ++ (B ++ C)).getD i 0 = x)).Sorted (fun a b : ℕ => a ≤ b) :=
    ((List.pairwise_lt_range _).filter _).imp (fun h => le_of_lt h)
  have hs2 : (List.range' A.length B.length).Sorted (fun a b : ℕ => a ≤ b) :=
    (List.pairwise_lt_range' _ _).imp (fun h => le_of_lt h)
  have hp : ((List.range (A ++ (B ++ C)).length).filter
      (fun i => (A ++ (B ++ C)).getD i 0 = x)).Perm
      (List.range' A.length B.length) := by
    rw [List.perm_ext_iff_of_nodup ((List.nodup_range _).filter _) nd2]
    intro i
    rw [List.mem_filter, List.mem_range, List.mem_range'_1]
    constructor
    · rintro ⟨hir, hpi⟩
      simp only [decide_eq_true_eq] at hpi
      exact (getD_decomp A B C x hA hB hC i hir).1 hpi
    · intro hi
      have hlen : i < (A ++ (B ++ C)).length := by
        simp only [List.length_append]
        omega
      refine ⟨hlen, ?_⟩
      simp only [decide_eq_true_eq]
      exact (getD_decomp A B C x hA hB hC i hlen).2 hi
  exact List.eq_of_perm_of_sorted hp hs1 hs2

theorem mean_rankPositions (xs : List ℚ) (x : ℚ) (hx : x ∈ xs) :
    mean (rankPositions xs x) = avgRank xs x := by
  have hperm : (sortedSignals xs).Perm xs := List.perm_insertionSort _ xs
  have hsort : (sortedSignals xs).Sorted (fun a b => a ≤ b) :=
    List.sorted_insertionSort _ xs
  have hdec := sorted_decomp x (sortedSignals xs) hsort
  have hA : ∀ y ∈ (sortedSignals xs).filter (fun y => y < x), y < x := by
    intro y hy
    have := List.of_mem_filter hy
    simpa using this
  have hB : ∀ y ∈ (sortedSignals xs).filter (fun y => y = x), y = x := by
    intro y hy
    have := List.of_mem_filter hy
    simpa using this
  have hC : ∀ y ∈ (sortedSignals xs).filter (fun y => x < y), x < y := by
    intro y hy
    have := List.of_mem_filter hy
    simpa using this
  have hfil0 : (List.range (sortedSignals xs).length).filter
      (fun i => (sortedSignals xs).getD i 0 = x) =
      List.range' ((sortedSignals xs).filter (fun y => y < x)).length
        ((sortedSignals xs).filter (fun y => y = x)).length := by
    conv_lhs => rw [hdec]
    exact filter_range_getD_aux _ _ _ x hA hB hC
  unfold rankPositions mean
  rw [hfil0, sum_range_shift, List.length_map, List.length_range']
  have hcl : ((sortedSignals xs).filter (fun y => y < x)).length =
      (xs.filter (fun y => y < x)).length := by
    have h2 := hperm.countP_eq (fun y => decide (y < x))
    rwa [List.countP_eq_length_filter, List.countP_eq_length_filter] at h2
  have hce : ((sortedSignals xs).filter (fun y => y = x)).length =
      (xs.filter (fun y => y = x)).length := by
    have h2 := hperm.countP_eq (fun y => decide (y = x))
    rwa [List.countP_eq_length_filter, List.countP_eq_length_filter] at h2
  rw [hcl, hce]
  have hxB : x ∈ xs.filter (fun y => y = x) := List.mem_filter.2 ⟨hx, by simp⟩
  have hBpos : 0 < (xs.filter (fun y => y = x)).length :=
    List.length_pos.2 (List.ne_nil_of_mem hxB)
  have hbne : ((xs.filter (fun y => y = x)).length : ℚ) ≠ 0 := by
    have : (0 : ℚ) < ((xs.filter (fun y => y = x)).length : ℚ) := by
      exact_mod_cast hBpos
    linarith
  unfold avgRank
  field_simp
  ring

/-! ### Evaluating the end-to-end scenario -/

theorem e2e_agg_bio : aggBio e2eBio =
    [{ key := e2eKey1, bio_5_17 := 5, bio_17_plus := 2 },
     { key := e2eKey2, bio_5_17 := 1, bio_17_plus := 1 }] := by
  have hdd : ((e2eBio.map BioRow.key).dedup) = [e2eKey1, e2eKey2] := by decide
  have d1 : (decide (e2eKey1 = e2eKey2)) = false := by decide
  have d2 : (decide (e2eKey2 = e2eKey1)) = false := by decide
  rw [aggBio, hdd]
  simp [sumAt, e2eBio, List.filter, d1, d2]

theorem e2e_agg_enrol : aggEnrol e2eEnrol =
    [{ key := e2eKey1, enrolment_count := 10 },
     { key := e2eKey2, enrolment_count := 10 }] := by
  have hdd : ((e2eEnrol.map EnrolRow.key).dedup) = [e2eKey1, e2eKey2] := by decide
  have d1 : (decide (e2eKey1 = e2eKey2)) = false := by decide
  have d2 : (decide (e2eKey2 = e2eKey1)) = false := by decide
  rw [aggEnrol, hdd]
  simp [sumAt, e2eEnrol, List.filter, d1, d2]

theorem e2e_merge : mergeTables e2eBio [] e2eEnrol =
    [{ key := e2eKey1, bio_5_17 := 5, bio_17_plus := 2, enrolment_count := 10 },
     { key := e2eKey2, bio_5_17 := 1, bio_17_plus := 1, enrolment_count := 10 }] := by
  have d1 : (decide (e2eKey1 = e2eKey2)) = false := by decide
  have d2 : (decide (e2eKey2 = e2eKey1)) = false := by decide
  rw [mergeTables, e2e_agg_bio, e2e_agg_enrol]
  simp [aggDemo, List.find?, d1, d2]

theorem e2e_indicators : (mergeTables e2eBio [] e2eEnrol).map addIndicators =
    [{ key := e2eKey1, bio_5_17 := 5, bio_17_plus := 2, enrolment_count := 10,
       total_bio_updates := 7, total_demo_updates := 0,
       bio_update_rate := 7/11, demo_update_rate := 0,
       bio_age_skew := 5/3, demo_age_skew := 0 },
     { key := e2eKey2, bio_5_17 := 1, bio_17_plus := 1, enrolment_count := 10,
       total_bio_updates := 2, total_demo_updates := 0,
       bio_update_rate := 2/11, demo_update_rate := 0,
       bio_age_skew := 1/2, demo_age_skew := 0 }] := by
  rw [e2e_merge]
  simp [addIndicators]
  norm_num

theorem e2e_sorted : ((mergeTables e2eBio [] e2eEnrol).map addIndicators).insertionSort rowLE =
    (mergeTables e2eBio [] e2eEnrol).map addIndicators := by
  rw [e2e_indicators]
  simp only [List.insertionSort, List.orderedInsert]
  rw [if_pos]
  rw [rowLE]
  decide

theorem e2e_vol : addVolatility ((mergeTables e2eBio [] e2eEnrol).map addIndicators) =
    (mergeTables e2eBio [] e2eEnrol).map addIndicators := by
  rw [addVolatility_eq, e2e_sorted, e2e_indicators]
  have hdd : (([(("S" : String), ("D1" : String)),
      (("S" : String), ("D2" : String))]).dedup) =
      [(("S" : String), ("D1" : String)), (("S" : String), ("D2" : String))] := by decide
  have p12 : (decide ((("S" : String), ("D1" : String)) =
      (("S", "D2") : String × String))) = false := by decide
  have p21 : (decide ((("S" : String), ("D2" : String)) =
      (("S", "D1") : String × String))) = false := by decide
  simp [regionOf, e2eKey1, e2eKey2, hdd, sortedGroup, volBlock, List.filter, p12, p21,
    momChanges, setMoms, List.insertionSort, List.orderedInsert, rowLE, keyLE, strLT]

theorem e2e_signal :
    (addVolatility ((mergeTables e2eBio [] e2eEnrol).map addIndicators)).map addSignal =
    [{ key := e2eKey1, bio_5_17 := 5, bio_17_plus := 2, enrolment_count := 10,
       total_bio_updates := 7, total_demo_updates := 0,
       bio_update_rate := 7/11, demo_update_rate := 0,
       bio_age_skew := 5/3, demo_age_skew := 0, risk_signal := 173/330 },
     { key := e2eKey2, bio_5_17 := 1, bio_17_plus := 1, enrolment_count := 10,
       total_bio_updates := 2, total_demo_updates := 0,
       bio_update_rate := 2/11, demo_update_rate := 0,
       bio_age_skew := 1/2, demo_age_skew := 0, risk_signal := 17/110 }] := by
  rw [e2e_vol, e2e_indicators]
  simp [addSignal]
  norm_num

theorem round2_hundred : round2 100 = 100 := by
  rw [round2, roundEven]
  norm_num

theorem round2_fifty : round2 50 = 50 := by
  rw [round2, roundEven]
  norm_num

theorem e2e_buildFeatures : buildFeatures e2eBio [] e2eEnrol =
    [{ key := e2eKey1, bio_5_17 := 5, bio_17_plus := 2, enrolment_count := 10,
       total_bio_updates := 7, total_demo_updates := 0,
       bio_update_rate := 7/11, demo_update_rate := 0,
       bio_age_skew := 5/3, demo_age_skew := 0, risk_signal := 173/330,
       risk_percent := 100 },
     { key := e2eKey2, bio_5_17 := 1, bio_17_plus := 1, enrolment_count := 10,
       total_bio_updates := 2, total_demo_updates := 0,
       bio_update_rate := 2/11, demo_update_rate := 0,
       bio_age_skew := 1/2, demo_age_skew := 0, risk_signal := 17/110,
       risk_percent := 50 }] := by
  have c1 : (decide ((17 : ℚ)/110 < 173/330)) = true := decide_eq_true (by norm_num)
  have c2 : (decide ((173 : ℚ)/330 < 173/330)) = false := decide_eq_false (by norm_num)
  have c3 : (decide ((173 : ℚ)/330 < 17/110)) = false := decide_eq_false (by norm_num)
  have c4 : (decide ((17 : ℚ)/110 < 17/110)) = false := decide_eq_false (by norm_num)
  have e1 : (decide ((173 : ℚ)/330 = 173/330)) = true := decide_eq_true (by norm_num)
  have e2 : (decide ((17 : ℚ)/110 = 173/330)) = false := decide_eq_false (by norm_num)
  have e3 : (decide ((173 : ℚ)/330 = 17/110)) = false := decide_eq_false (by norm_num)
  have e4 : (decide ((17 : ℚ)/110 = 17/110)) = true := decide_eq_true (by norm_num)
  show addRank ((addVolatility ((mergeTables e2eBio [] e2eEnrol).map
    addIndicators)).map addSignal) = _
  rw [e2e_signal]
  simp only [addRank, rankUpd, List.map_cons, List.map_nil, avgRank, List.filter,
    c1, c2, c3, c4, e1, e2, e3, e4, List.length_cons, List.length_nil]
  norm_num [round2_hundred, round2_fifty]

/-! ### Claims -/

/-- C6: every Region-Month Record's four base ratios are computed with +1
denominator smoothing from its own counts, the smoothed denominators are
nonzero whenever the counts are non-negative, and a record with
`enrolment_count = 0` and `total_bio_updates = 5` gets
`bio_update_rate = 5`, not an error or an infinity. -/
theorem spec_c6 (bio : List BioRow) (demo : List DemoRow) (enrol : List EnrolRow)
    (r : Row) (hr : r ∈ buildFeatures bio demo enrol) :
    (r.total_bio_updates = r.bio_5_17 + r.bio_17_plus ∧
     r.total_demo_updates = r.demo_5_17 + r.demo_17_plus ∧
     r.bio_update_rate = r.total_bio_updates / (r.enrolment_count + 1) ∧
     r.demo_update_rate = r.total_demo_updates / (r.enrolment_count + 1) ∧
     r.bio_age_skew = r.bio_5_17 / (r.bio_17_plus + 1) ∧
     r.demo_age_skew = r.demo_5_17 / (r.demo_17_plus + 1)) ∧
    (0 ≤ r.enrolment_count → r.enrolment_count + 1 ≠ 0) ∧
    (0 ≤ r.bio_17_plus → r.bio_17_plus + 1 ≠ 0) ∧
    (0 ≤ r.demo_17_plus → r.demo_17_plus + 1 ≠ 0) ∧
    (r.enrolment_count = 0 → r.total_bio_updates = 5 → r.bio_update_rate = 5) := by
  obtain ⟨m, hm, hkey, e1, e2, e3, e4, e5, e6, e7, e8, e9, e10, e11, e12⟩ :=
    mem_buildFeatures_core hr
  refine ⟨⟨e6, e7, ?_, ?_, e10, e11⟩, ?_, ?_, ?_, ?_⟩
  · rw [e6]
    exact e8
  · rw [e7]
    exact e9
  · intro h hc
    linarith
  · intro h hc
    linarith
  · intro h hc
    linarith
  · intro hz h5
    rw [e8, ← e6, hz, h5]
    norm_num

/-- C6 witness: the first record of the end-to-end scenario satisfies the
smoothed-rate equation with a nonzero denominator. -/
theorem spec_c6_witness :
    ((buildFeatures e2eBio [] e2eEnrol)[0]!).bio_update_rate =
      ((buildFeatures e2eBio [] e2eEnrol)[0]!).total_bio_updates /
        (((buildFeatures e2eBio [] e2eEnrol)[0]!).enrolment_count + 1) ∧
    ((buildFeatures e2eBio [] e2eEnrol)[0]!).enrolment_count + 1 ≠ 0 :=
  ⟨((spec_c6 e2eBio [] e2eEnrol _ (by
      rw [e2e_buildFeatures]
      exact List.mem_cons_self _ _)).1).2.2.1,
   (spec_c6 e2eBio [] e2eEnrol _ (by
      rw [e2e_buildFeatures]
      exact List.mem_cons_self _ _)).2.1 (by
      rw [e2e_buildFeatures]
      exact (by norm_num : (0 : ℚ) ≤ 10))⟩

/-- C2: each record's `risk_percent` is the tie-averaged rank position of
its `risk_signal` in the ascending sort of the signals of all records of
the run, divided by the number of records, scaled to 0-100 and rounded to
two decimals. -/
theorem spec_c2 (bio : List BioRow) (demo : List DemoRow) (enrol : List EnrolRow)
    (r : Row) (hr : r ∈ buildFeatures bio demo enrol) :
    r.risk_percent =
      round2 (specPercentile ((buildFeatures bio demo enrol).map Row.risk_signal)
        r.risk_signal) := by
  have h1 := mem_buildFeatures_rank hr
  have hx : r.risk_signal ∈ (buildFeatures bio demo enrol).map Row.risk_signal :=
    List.mem_map_of_mem Row.risk_signal hr
  rw [h1]
  unfold specPercentile
  rw [mean_rankPositions _ _ hx, List.length_map]

/-- C2 witness: the percentile-rank formula evaluated at the first record
of the end-to-end scenario. -/
theorem spec_c2_witness :
    ((buildFeatures e2eBio [] e2eEnrol)[0]!).risk_percent =
      round2 (specPercentile ((buildFeatures e2eBio [] e2eEnrol).map Row.risk_signal)
        ((buildFeatures e2eBio [] e2eEnrol)[0]!).risk_signal) :=
  spec_c2 e2eBio [] e2eEnrol _ (by
    rw [e2e_buildFeatures]
    exact List.mem_cons_self _ _)

/-- C8: within one run, a strictly larger `risk_signal` yields a
`risk_percent` at least as large, the 2-decimal rounding included. -/
theorem spec_c8 (bio : List BioRow) (demo : List DemoRow) (enrol : List EnrolRow)
    (A B : Row) (hA : A ∈ buildFeatures bio demo enrol)
    (hB : B ∈ buildFeatures bio demo enrol)
    (h : A.risk_signal > B.risk_signal) : A.risk_percent ≥ B.risk_percent := by
  rw [mem_buildFeatures_rank hA, mem_buildFeatures_rank hB]
  apply round2_mono
  have hlen : 0 < (buildFeatures bio demo enrol).length :=
    List.length_pos.2 (List.ne_nil_of_mem hA)
  have hlenQ : (0 : ℚ) < (((buildFeatures bio demo enrol).length : ℚ)) := by
    exact_mod_cast hlen
  have hm := avgRank_mono ((buildFeatures bio demo enrol).map Row.risk_signal) h
  gcongr

/-- C8 witness: in the end-to-end scenario the first record's signal
exceeds the second's, and so does its percentage. -/
theorem spec_c8_witness :
    ((buildFeatures e2eBio [] e2eEnrol)[0]!).risk_percent ≥
      ((buildFeatures e2eBio [] e2eEnrol)[1]!).risk_percent :=
  spec_c8 e2eBio [] e2eEnrol _ _ (by
      rw [e2e_buildFeatures]
      exact List.mem_cons_self _ _)
    (by
      rw [e2e_buildFeatures]
      exact List.mem_cons.2 (Or.inr (List.mem_cons_self _ _)))
    (by
      rw [e2e_buildFeatures]
      exact (by norm_num : (173 : ℚ)/330 > 17/110))

/-- C1 counterexample: running the engine on the spec §8 end-to-end
scenario (biometric (5,2) and (1,1), enrolment 10 each, no demographic
updates) gives region 2 a `risk_percent` of 50, not the 0 the claim
demands: pandas percentile rank never assigns 0 to an occupied rank. -/
theorem spec_c1_counterexample :
    ((buildFeatures e2eBio [] e2eEnrol).map
        (fun r => (r.key.district, r.risk_percent))) =
      [(("D1" : String), (100 : ℚ)), ("D2", 50)] ∧ (50 : ℚ) ≠ 0 := by
  constructor
  · rw [e2e_buildFeatures]
    simp [e2eKey1, e2eKey2]
  · norm_num

/-- C1 (amended): in the end-to-end scenario the update rates are 7/11
and 2/11, region 1's risk_signal (173/330) exceeds region 2's (17/110),
and the engine's risk_percent output is 100.0 for region 1 and 50.0 —
not 0.0 — for region 2 (the percentile rank of the lower of two
observations is 1/2). -/
theorem spec_c1 :
    ((buildFeatures e2eBio [] e2eEnrol).map
        (fun r => (r.key.district, r.bio_update_rate, r.risk_signal, r.risk_percent))) =
      [(("D1" : String), (7 / 11 : ℚ), (173 / 330 : ℚ), (100 : ℚ)),
       ("D2", 2 / 11, 17 / 110, 50)] ∧
    (17 : ℚ) / 110 < 173 / 330 := by
  constructor
  · rw [e2e_buildFeatures]
    simp [e2eKey1, e2eKey2]
  · norm_num

/-- C3 counterexample: with all three input tables empty the engine does
not fail with an EmptyInputError (no such error exists in the code); it
silently produces two empty output tables. -/
theorem spec_c3_counterexample : runEngine [] [] [] = ([], []) := rfl

/-- C3 (amended): an empty biometric input table (whatever the other two
tables hold) makes the engine produce empty district and state output
tables without raising any error. -/
theorem spec_c3 (demo : List DemoRow) (enrol : List EnrolRow) :
    runEngine [] demo enrol = ([], []) := by
  have hm : mergeTables [] demo enrol = [] := by
    rw [mergeTables]
    rw [show aggBio [] = [] from rfl]
    rfl
  have hb : buildFeatures [] demo enrol = [] := by
    rw [buildFeatures, hm]
    rfl
  rw [runEngine, hb]
  rfl

/-- C5: the merged table has exactly one record per key (keys are
deduplicated, never repeated), its key set is exactly the biometric key
set, every count column is the sum of the matching raw rows (duplicates
summed), and a key with no demographic or enrolment match gets zeros. -/
theorem spec_c5 (bio : List BioRow) (demo : List DemoRow) (enrol : List EnrolRow) :
    ((mergeTables bio demo enrol).map Row.key).Nodup ∧
    (∀ k : Key, k ∈ (mergeTables bio demo enrol).map Row.key ↔ k ∈ bio.map BioRow.key) ∧
    (∀ r ∈ mergeTables bio demo enrol,
      r.bio_5_17 = sumAt BioRow.key BioRow.bio_5_17 bio r.key ∧
      r.bio_17_plus = sumAt BioRow.key BioRow.bio_17_plus bio r.key ∧
      r.demo_5_17 = sumAt DemoRow.key DemoRow.demo_5_17 demo r.key ∧
      r.demo_17_plus = sumAt DemoRow.key DemoRow.demo_17_plus demo r.key ∧
      r.enrolment_count = sumAt EnrolRow.key EnrolRow.enrolment_count enrol r.key ∧
      ((∀ d ∈ demo, d.key ≠ r.key) → r.demo_5_17 = 0 ∧ r.demo_17_plus = 0) ∧
      ((∀ e ∈ enrol, e.key ≠ r.key) → r.enrolment_count = 0)) := by
  refine ⟨?_, ?_, ?_⟩
  · rw [mergeTables_map_key]
    exact List.nodup_dedup _
  · intro k
    rw [mergeTables_map_key, List.mem_dedup]
  · intro r hr
    obtain ⟨hk, e1, e2, e3, e4, e5⟩ := mem_mergeTables hr
    refine ⟨e1, e2, e3, e4, e5, ?_, ?_⟩
    · intro hnod
      constructor
      · rw [e3]
        apply sumAt_eq_zero_of_not_mem
        intro hmem
        obtain ⟨d, hd, hke⟩ := List.mem_map.1 hmem
        exact hnod d hd hke
      · rw [e4]
        apply sumAt_eq_zero_of_not_mem
        intro hmem
        obtain ⟨d, hd, hke⟩ := List.mem_map.1 hmem
        exact hnod d hd hke
    · intro hnoe
      rw [e5]
      apply sumAt_eq_zero_of_not_mem
      intro hmem
      obtain ⟨e, he, hke⟩ := List.mem_map.1 hmem
      exact hnoe e he hke

/-- C5 witness: in the end-to-end scenario (no demographic input) the
merged keys are deduplicated and its first record's demographic columns
fill with zero. -/
theorem spec_c5_witness :
    ((mergeTables e2eBio [] e2eEnrol).map Row.key).Nodup ∧
    (e2eKey1 ∈ (mergeTables e2eBio [] e2eEnrol).map Row.key ↔
      e2eKey1 ∈ e2eBio.map BioRow.key) ∧
    (((mergeTables e2eBio [] e2eEnrol)[0]!).demo_5_17 = 0 ∧
      ((mergeTables e2eBio [] e2eEnrol)[0]!).demo_17_plus = 0) :=
  ⟨(spec_c5 e2eBio [] e2eEnrol).1,
   (spec_c5 e2eBio [] e2eEnrol).2.1 e2eKey1,
   ((spec_c5 e2eBio [] e2eEnrol).2.2 _ (by
      rw [e2e_merge]
      exact List.mem_cons_self _ _)).2.2.2.2.2.1 (by
      intro d hd
      exact absurd hd (List.not_mem_nil d))⟩

/-- C10: a key with no biometric row yields no Region-Month Record at
all, and every row of the two output tables traces back to some
Region-Month Record's region, so the key contributes nothing to them. -/
theorem spec_c10 (bio : List BioRow) (demo : List DemoRow) (enrol : List EnrolRow)
    (k : Key) (hk : ∀ b ∈ bio, b.key ≠ k) :
    (∀ r ∈ buildFeatures bio demo enrol, r.key ≠ k) ∧
    (∀ d ∈ districtRisk (buildFeatures bio demo enrol),
      ∃ r ∈ buildFeatures bio demo enrol,
        r.key.state = d.state ∧ r.key.district = d.district) ∧
    (∀ s ∈ stateRisk (districtRisk (buildFeatures bio demo enrol)),
      ∃ r ∈ buildFeatures bio demo enrol, r.key.state = s.state) := by
  refine ⟨?_, ?_, ?_⟩
  · intro r hr he
    obtain ⟨m, hm, hkey, _⟩ := mem_buildFeatures_core hr
    have hmk := (mem_mergeTables hm).1
    obtain ⟨b, hb, hbk⟩ := List.mem_map.1 hmk
    exact hk b hb (by rw [hbk, ← hkey, he])
  · intro d hd
    rw [districtRisk] at hd
    have hd2 := (List.mem_insertionSort descD).1 hd
    obtain ⟨p, hp, rfl⟩ := List.mem_map.1 hd2
    have hp2 := (List.mem_insertionSort pairLE).1 hp
    rw [List.mem_dedup] at hp2
    obtain ⟨r, hr, hrp⟩ := List.mem_map.1 hp2
    refine ⟨r, hr, ?_, ?_⟩
    · exact congrArg Prod.fst hrp
    · exact congrArg Prod.snd hrp
  · intro s hs
    rw [stateRisk] at hs
    have hs2 := (List.mem_insertionSort descS).1 hs
    obtain ⟨st, hst, rfl⟩ := List.mem_map.1 hs2
    have hst2 := (List.mem_insertionSort strLE).1 hst
    rw [List.mem_dedup] at hst2
    obtain ⟨d, hd, hds⟩ := List.mem_map.1 hst2
    rw [districtRisk] at hd
    have hd2 := (List.mem_insertionSort descD).1 hd
    obtain ⟨p, hp, rfl⟩ := List.mem_map.1 hd2
    have hp2 := (List.mem_insertionSort pairLE).1 hp
    rw [List.mem_dedup] at hp2
    obtain ⟨r, hr, hrp⟩ := List.mem_map.1 hp2
    refine ⟨r, hr, ?_⟩
    rw [← hds]
    exact congrArg Prod.fst hrp

/-- C10 witness: a key absent from the end-to-end biometric table never
appears among the engine's records. -/
theorem spec_c10_witness :
    ((buildFeatures e2eBio [] e2eEnrol)[0]!).key ≠
      ({ state := "Z", district := "Q", year := 2024, month := 1 } : Key) :=
  (spec_c10 e2eBio [] e2eEnrol
      { state := "Z", district := "Q", year := 2024, month := 1 }
      (by decide)).1 _ (by
    rw [e2e_buildFeatures]
    exact List.mem_cons_self _ _)

theorem e2e_districtRisk : districtRisk (buildFeatures e2eBio [] e2eEnrol) =
    [{ state := "S", district := "D1", risk_percent := 100 },
     { state := "S", district := "D2", risk_percent := 50 }] := by
  unfold districtRisk
  rw [e2e_buildFeatures]
  have hdd : (([(("S" : String), ("D1" : String)),
      (("S" : String), ("D2" : String))]).dedup) =
      [(("S" : String), ("D1" : String)), (("S" : String), ("D2" : String))] := by decide
  have q11 : (decide ((("S", "D1") : String × String) = ("S", "D1"))) = true := by decide
  have q21 : (decide ((("S", "D2") : String × String) = ("S", "D1"))) = false := by decide
  have q12 : (decide ((("S", "D1") : String × String) = ("S", "D2"))) = false := by decide
  have q22 : (decide ((("S", "D2") : String × String) = ("S", "D2"))) = true := by decide
  simp only [List.map_cons, List.map_nil, regionOf, e2eKey1, e2eKey2]
  rw [hdd]
  simp only [List.insertionSort, List.orderedInsert]
  simp only [List.filter, q11, q12, q21, q22, mean, List.map_cons, List.map_nil,
    List.length_cons, List.length_nil, List.sum_cons, List.sum_nil]
  norm_num
  unfold descD
  norm_num

theorem e2e_stateRisk : stateRisk (districtRisk (buildFeatures e2eBio [] e2eEnrol)) =
    [{ state := "S", risk_percent := 75 }] := by
  rw [e2e_districtRisk]
  unfold stateRisk
  have hdd : (([("S" : String), "S"]).dedup) = ["S"] := by decide
  have r1 : (decide (("S" : String) = "S")) = true := by decide
  simp only [List.map_cons, List.map_nil]
  rw [hdd]
  simp only [List.insertionSort, List.orderedInsert, List.filter, r1, mean,
    List.map_cons, List.map_nil, List.length_cons, List.length_nil,
    List.sum_cons, List.sum_nil]
  norm_num

/-- C9: each district row's `risk_percent` is the arithmetic mean of the
`risk_percent` of that district's Region-Month Records, each state row's
is the mean of its district means (two-level mean), and both outputs are
sorted descending by `risk_percent`. -/
theorem spec_c9 (bio : List BioRow) (demo : List DemoRow) (enrol : List EnrolRow) :
    (∀ d ∈ districtRisk (buildFeatures bio demo enrol),
      d.risk_percent = mean (((buildFeatures bio demo enrol).filter
        (fun r => regionOf r = (d.state, d.district))).map Row.risk_percent)) ∧
    (∀ s ∈ stateRisk (districtRisk (buildFeatures bio demo enrol)),
      s.risk_percent = mean (((districtRisk (buildFeatures bio demo enrol)).filter
        (fun t => t.state = s.state)).map DistrictRow.risk_percent)) ∧
    ((districtRisk (buildFeatures bio demo enrol)).map DistrictRow.risk_percent).Sorted
      (fun a b => b ≤ a) ∧
    ((stateRisk (districtRisk (buildFeatures bio demo enrol))).map
      StateRow.risk_percent).Sorted (fun a b => b ≤ a) := by
  refine ⟨?_, ?_, ?_, ?_⟩
  · intro d hd
    unfold districtRisk at hd
    have hd2 := (List.mem_insertionSort descD).1 hd
    obtain ⟨p, hp, rfl⟩ := List.mem_map.1 hd2
    rfl
  · intro s hs
    unfold stateRisk at hs
    have hs2 := (List.mem_insertionSort descS).1 hs
    obtain ⟨st, hst, rfl⟩ := List.mem_map.1 hs2
    rfl
  · unfold districtRisk
    exact (List.sorted_insertionSort descD _).map DistrictRow.risk_percent
      (fun a b h => h)
  · unfold stateRisk
    exact (List.sorted_insertionSort descS _).map StateRow.risk_percent
      (fun a b h => h)

/-- C9 witness: the first district row of the end-to-end scenario carries
the mean of its region-months' percentages. -/
theorem spec_c9_witness :
    ((districtRisk (buildFeatures e2eBio [] e2eEnrol))[0]!).risk_percent =
      mean (((buildFeatures e2eBio [] e2eEnrol).filter
        (fun r => regionOf r =
          (((districtRisk (buildFeatures e2eBio [] e2eEnrol))[0]!).state,
           ((districtRisk (buildFeatures e2eBio [] e2eEnrol))[0]!).district))).map
        Row.risk_percent) :=
  (spec_c9 e2eBio [] e2eEnrol).1 _ (by
    rw [e2e_districtRisk]
    exact List.mem_cons_self _ _)

theorem filter_region_eq (l : List Row) (st di : String) :
    l.filter (fun r => r.key.state = st ∧ r.key.district = di) =
      l.filter (fun r => regionOf r = (st, di)) := by
  apply List.filter_congr
  intro a _
  rw [decide_eq_decide]
  simp [regionOf, Prod.ext_iff]

theorem strLT_irrefl (x : String) : ¬ strLT x x := by
  unfold strLT
  rw [List.lt_iff_lex_lt]
  exact irrefl_of (List.Lex (· < ·)) x.data

/-- C7: within every (state, district) group of the finished feature
frame, ordered by (year, month) ascending, the first record's
month-over-month changes are 0, and every later record's change is the
absolute relative change from the previous record — clamped to 0 when the
previous rate is 0. -/
theorem spec_c7 (bio : List BioRow) (demo : List DemoRow) (enrol : List EnrolRow)
    (st di : String) (g : List Row)
    (hg : g = (buildFeatures bio demo enrol).filter
      (fun r => r.key.state = st ∧ r.key.district = di)) :
    (∀ h0 : 0 < g.length,
      (g.get ⟨0, h0⟩).bio_mom_change = 0 ∧ (g.get ⟨0, h0⟩).demo_mom_change = 0) ∧
    (∀ (i : ℕ) (h1 : i < g.length) (h2 : i + 1 < g.length),
      (g.get ⟨i + 1, h2⟩).bio_mom_change =
        (if (g.get ⟨i, h1⟩).bio_update_rate = 0 then 0
         else |((g.get ⟨i + 1, h2⟩).bio_update_rate -
            (g.get ⟨i, h1⟩).bio_update_rate) / (g.get ⟨i, h1⟩).bio_update_rate|) ∧
      (g.get ⟨i + 1, h2⟩).demo_mom_change =
        (if (g.get ⟨i, h1⟩).demo_update_rate = 0 then 0
         else |((g.get ⟨i + 1, h2⟩).demo_update_rate -
            (g.get ⟨i, h1⟩).demo_update_rate) / (g.get ⟨i, h1⟩).demo_update_rate|)) ∧
    g.Pairwise (fun a b => a.key.year < b.key.year ∨
      (a.key.year = b.key.year ∧ a.key.month ≤ b.key.month)) := by
  obtain ⟨f, hf, heq⟩ := buildFeatures_filter_spec bio demo enrol (st, di)
  rw [filter_region_eq, heq] at hg
  subst hg
  have hlenvb : (volBlock ((mergeTables bio demo enrol).map addIndicators) (st, di)).length =
      (sortedGroup ((mergeTables bio demo enrol).map addIndicators) (st, di)).length :=
    volBlock_length _ _
  have hlenb : (momChanges ((sortedGroup ((mergeTables bio demo enrol).map addIndicators)
      (st, di)).map Row.bio_update_rate)).length =
      (sortedGroup ((mergeTables bio demo enrol).map addIndicators) (st, di)).length := by
    rw [length_momChanges, List.length_map]
  have hlend : (momChanges ((sortedGroup ((mergeTables bio demo enrol).map addIndicators)
      (st, di)).map Row.demo_update_rate)).length =
      (sortedGroup ((mergeTables bio demo enrol).map addIndicators) (st, di)).length := by
    rw [length_momChanges, List.length_map]
  refine ⟨?_, ?_, ?_⟩
  · intro h0
    have h0v : 0 < (volBlock ((mergeTables bio demo enrol).map addIndicators)
        (st, di)).length := by
      have h := h0
      rw [List.length_map] at h
      exact h
    have hg0 : 0 < (sortedGroup ((mergeTables bio demo enrol).map addIndicators)
        (st, di)).length := by omega
    have hb0 : 0 < (momChanges ((sortedGroup ((mergeTables bio demo enrol).map
        addIndicators) (st, di)).map Row.bio_update_rate)).length := by omega
    have hd0 : 0 < (momChanges ((sortedGroup ((mergeTables bio demo enrol).map
        addIndicators) (st, di)).map Row.demo_update_rate)).length := by omega
    have e0 : (((volBlock ((mergeTables bio demo enrol).map addIndicators)
        (st, di)).map f).get ⟨0, h0⟩) =
        f ((volBlock ((mergeTables bio demo enrol).map addIndicators)
          (st, di)).get ⟨0, h0v⟩) := by
      simp [List.get_eq_getElem, List.getElem_map]
    have hv := volBlock_get ((mergeTables bio demo enrol).map addIndicators)
      (st, di) 0 h0v hg0 hb0 hd0
    rw [e0, hv]
    constructor
    · rw [(hf _).2.1]
      exact momChanges_get_zero _ hb0
    · rw [(hf _).2.2.1]
      exact momChanges_get_zero _ hd0
  · intro i h1 h2
    have h1v : i < (volBlock ((mergeTables bio demo enrol).map addIndicators)
        (st, di)).length := by
      have h := h1
      rw [List.length_map] at h
      exact h
    have h2v : i + 1 < (volBlock ((mergeTables bio demo enrol).map addIndicators)
        (st, di)).length := by
      have h := h2
      rw [List.length_map] at h
      exact h
    have hg1 : i < (sortedGroup ((mergeTables bio demo enrol).map addIndicators)
        (st, di)).length := by omega
    have hg2 : i + 1 < (sortedGroup ((mergeTables bio demo enrol).map addIndicators)
        (st, di)).length := by omega
    have hb1 : i < (momChanges ((sortedGroup ((mergeTables bio demo enrol).map
        addIndicators) (st, di)).map Row.bio_update_rate)).length := by omega
    have hb2 : i + 1 < (momChanges ((sortedGroup ((mergeTables bio demo enrol).map
        addIndicators) (st, di)).map Row.bio_update_rate)).length := by omega
    have hd1 : i < (momChanges ((sortedGroup ((mergeTables bio demo enrol).map
        addIndicators) (st, di)).map Row.demo_update_rate)).length := by omega
    have hd2 : i + 1 < (momChanges ((sortedGroup ((mergeTables bio demo enrol).map
        addIndicators) (st, di)).map Row.demo_update_rate)).length := by omega
    have hmb1 : i < ((sortedGroup ((mergeTables bio demo enrol).map addIndicators)
        (st, di)).map Row.bio_update_rate).length := by
      rw [List.length_map]
      exact hg1
    have hmb2 : i + 1 < ((sortedGroup ((mergeTables bio demo enrol).map addIndicators)
        (st, di)).map Row.bio_update_rate).length := by
      rw [List.length_map]
      exact hg2
    have hmd1 : i < ((sortedGroup ((mergeTables bio demo enrol).map addIndicators)
        (st, di)).map Row.demo_update_rate).length := by
      rw [List.length_map]
      exact hg1
    have hmd2 : i + 1 < ((sortedGroup ((mergeTables bio demo enrol).map addIndicators)
        (st, di)).map Row.demo_update_rate).length := by
      rw [List.length_map]
      exact hg2
    have e0 : (((volBlock ((mergeTables bio demo enrol).map addIndicators)
        (st, di)).map f).get ⟨i, h1⟩) =
        f ((volBlock ((mergeTables bio demo enrol).map addIndicators)
          (st, di)).get ⟨i, h1v⟩) := by
      simp [List.get_eq_getElem, List.getElem_map]
    have e1 : (((volBlock ((mergeTables bio demo enrol).map addIndicators)
        (st, di)).map f).get ⟨i + 1, h2⟩) =
        f ((volBlock ((mergeTables bio demo enrol).map addIndicators)
          (st, di)).get ⟨i + 1, h2v⟩) := by
      simp [List.get_eq_getElem, List.getElem_map]
    have hv0 := volBlock_get ((mergeTables bio demo enrol).map addIndicators)
      (st, di) i h1v hg1 hb1 hd1
    have hv1 := volBlock_get ((mergeTables bio demo enrol).map addIndicators)
      (st, di) (i + 1) h2v hg2 hb2 hd2
    have hsb := momChanges_get_succ ((sortedGroup ((mergeTables bio demo enrol).map
      addIndicators) (st, di)).map Row.bio_update_rate) i hmb1 hmb2 hb2
    have hsd := momChanges_get_succ ((sortedGroup ((mergeTables bio demo enrol).map
      addIndicators) (st, di)).map Row.demo_update_rate) i hmd1 hmd2 hd2
    have hgb0 : ((sortedGroup ((mergeTables bio demo enrol).map addIndicators)
        (st, di)).map Row.bio_update_rate).get ⟨i, hmb1⟩ =
        ((sortedGroup ((mergeTables bio demo enrol).map addIndicators)
          (st, di)).get ⟨i, hg1⟩).bio_update_rate := by
      simp [List.get_eq_getElem, List.getElem_map]
    have hgb1 : ((sortedGroup ((mergeTables bio demo enrol).map addIndicators)
        (st, di)).map Row.bio_update_rate).get ⟨i + 1, hmb2⟩ =
        ((sortedGroup ((mergeTables bio demo enrol).map addIndicators)
          (st, di)).get ⟨i + 1, hg2⟩).bio_update_rate := by
      simp [List.get_eq_getElem, List.getElem_map]
    have hgd0 : ((sortedGroup ((mergeTables bio demo enrol).map addIndicators)
        (st, di)).map Row.demo_update_rate).get ⟨i, hmd1⟩ =
        ((sortedGroup ((mergeTables bio demo enrol).map addIndicators)
          (st, di)).get ⟨i, hg1⟩).demo_update_rate := by
      simp [List.get_eq_getElem, List.getElem_map]
    have hgd1 : ((sortedGroup ((mergeTables bio demo enrol).map addIndicators)
        (st, di)).map Row.demo_update_rate).get ⟨i + 1, hmd2⟩ =
        ((sortedGroup ((mergeTables bio demo enrol).map addIndicators)
          (st, di)).get ⟨i + 1, hg2⟩).demo_update_rate := by
      simp [List.get_eq_getElem, List.getElem_map]
    rw [e0, e1, hv0, hv1]
    constructor
    · rw [(hf _).2.1, (hf _).2.2.2.1, (hf _).2.2.2.1]
      refine hsb.trans ?_
      rw [hgb0, hgb1]
      simp only [step, setMoms]
    · rw [(hf _).2.2.1, (hf _).2.2.2.2, (hf _).2.2.2.2]
      refine hsd.trans ?_
      rw [hgd0, hgd1]
      simp only [step, setMoms]
  · have hsorted : ((((mergeTables bio demo enrol).map addIndicators).insertionSort
        rowLE)).Pairwise rowLE :=
      List.sorted_insertionSort rowLE _
    have hgg : (sortedGroup ((mergeTables bio demo enrol).map addIndicators)
        (st, di)).Pairwise rowLE := by
      unfold sortedGroup
      exact hsorted.filter _
    have hkeys : (((volBlock ((mergeTables bio demo enrol).map addIndicators)
        (st, di)).map f).map Row.key) =
        (sortedGroup ((mergeTables bio demo enrol).map addIndicators)
          (st, di)).map Row.key := by
      rw [List.map_map]
      rw [show (Row.key ∘ f) = Row.key from funext (fun r => (hf r).1)]
      exact volBlock_map_key _ _
    have hp1 : ((sortedGroup ((mergeTables bio demo enrol).map addIndicators)
        (st, di)).map Row.key).Pairwise keyLE := List.pairwise_map.2 hgg
    have hp2 : (((volBlock ((mergeTables bio demo enrol).map addIndicators)
        (st, di)).map f).map Row.key).Pairwise keyLE := by
      rw [hkeys]
      exact hp1
    have hp3 : ((volBlock ((mergeTables bio demo enrol).map addIndicators)
        (st, di)).map f).Pairwise (fun a b => keyLE a.key b.key) :=
      List.pairwise_map.1 hp2
    refine List.Pairwise.imp_of_mem ?_ hp3
    intro a b ha hb hab
    have hra : regionOf a = (st, di) := by
      obtain ⟨a0, ha0, rfl⟩ := List.mem_map.1 ha
      have hr0 := mem_volBlock_region ha0
      have hfa : regionOf (f a0) = regionOf a0 := by
        unfold regionOf
        rw [(hf a0).1]
      rw [hfa, hr0]
    have hrb : regionOf b = (st, di) := by
      obtain ⟨b0, hb0, rfl⟩ := List.mem_map.1 hb
      have hr0 := mem_volBlock_region hb0
      have hfb : regionOf (f b0) = regionOf b0 := by
        unfold regionOf
        rw [(hf b0).1]
      rw [hfb, hr0]
    have hsa : a.key.state = st := congrArg Prod.fst hra
    have hdista : a.key.district = di := congrArg Prod.snd hra
    have hsb2 : b.key.state = st := congrArg Prod.fst hrb
    have hdistb : b.key.district = di := congrArg Prod.snd hrb
    unfold keyLE at hab
    rcases hab with h | ⟨hseq, hab⟩
    · exfalso
      rw [hsa, hsb2] at h
      exact strLT_irrefl st h
    · rcases hab with h | ⟨hdeq, hab⟩
      · exfalso
        rw [hdista, hdistb] at h
        exact strLT_irrefl di h
      · exact hab

/-- C7 witness: the earliest record of the two-month region has zero
month-over-month change. -/
theorem spec_c7_witness :
    (((buildFeatures twoBio [] twoEnrol).filter
        (fun r => r.key.state = "S" ∧ r.key.district = "D")).get
      ⟨0, by decide⟩).bio_mom_change = 0 :=
  ((spec_c7 twoBio [] twoEnrol "S" "D" _ rfl).1 (by decide)).1

/-- C4 counterexample: a biometric input table that is missing the
required key column `state` (but has every metric column) passes the
explicit required-columns check and instead fails at the final column
selection with a pandas `KeyError` that names only the missing label —
not a failure naming both the missing columns and the columns actually
present, as the spec's `SchemaError` demands. -/
theorem spec_c4_counterexample :
    processBiometricCols ["district", "year", "month", "bio_5_17", "bio_17_plus"] =
      Except.error (CleanError.keyError ["state"]) := rfl

/-- What any one family's cleaning run guarantees, generically in the
rename mapping, required metric columns, derived columns and output
schema: a `.ok` result means every output-schema column is present; a
`ValueError` reports exactly the absent required metric columns together
with the full list of columns actually present, and only fires when its
missing list is nonempty; a `KeyError` reports exactly the absent
output-schema labels — nothing else — and only fires when every required
metric column was present. -/
theorem processFamilyCols_spec (mapping : List (String × String))
    (required derived sel cols : List String) :
    (∀ out, processFamilyCols mapping required derived sel cols = Except.ok out →
      out = sel ∧ ∀ c ∈ sel,
        (derived.foldl addCol (renameCols (cleanCommonCols cols) mapping)).contains c = true) ∧
    (∀ missing present,
      processFamilyCols mapping required derived sel cols =
        Except.error (CleanError.valueError missing present) →
      present = renameCols (cleanCommonCols cols) mapping ∧
      missing = required.filter
        (fun c => !((renameCols (cleanCommonCols cols) mapping).contains c)) ∧
      missing ≠ []) ∧
    (∀ notFound,
      processFamilyCols mapping required derived sel cols =
        Except.error (CleanError.keyError notFound) →
      notFound = sel.filter (fun c =>
        !((derived.foldl addCol (renameCols (cleanCommonCols cols) mapping)).contains c)) ∧
      notFound ≠ [] ∧
      ∀ c ∈ required, (renameCols (cleanCommonCols cols) mapping).contains c = true) := by
  refine ⟨?_, ?_, ?_⟩
  · intro out h
    unfold processFamilyCols at h
    split_ifs at h with hreq hsel
    obtain rfl : out = _ := (Except.ok.inj h).symm
    refine ⟨rfl, ?_⟩
    intro c hc
    unfold famNotFound at hsel
    have hnil := List.isEmpty_iff.1 hsel
    have hm := List.filter_eq_nil_iff.1 hnil c hc
    simpa using hm
  · intro missing present h
    unfold processFamilyCols at h
    split_ifs at h with hreq hsel
    · exact absurd h (by simp)
    · obtain ⟨h1, h2⟩ := CleanError.valueError.inj (Except.error.inj h)
      refine ⟨h2.symm, h1.symm, ?_⟩
      intro hn
      exact hreq (by rw [h1, hn]; rfl)
  · intro notFound h
    unfold processFamilyCols at h
    split_ifs at h with hreq hsel
    · have h1 := CleanError.keyError.inj (Except.error.inj h)
      refine ⟨h1.symm, ?_, ?_⟩
      · intro hn
        exact hsel (by rw [h1, hn]; rfl)
      · intro c hc
        unfold famMissing at hreq
        have hnil := List.isEmpty_iff.1 hreq
        have hm := List.filter_eq_nil_iff.1 hnil c hc
        simpa using hm
    · exact absurd h (by simp)

/-- C4 (amended): what the cleaning stage really guarantees, for all three
input families (biometric, demographic, enrolment). It never proceeds
silently with a required column absent, but only the metric columns
(`bio_5_17`/`bio_17_plus`, `demo_5_17`/`demo_17_plus`,
`enrol_0_5`/`enrol_5_17`/`enrol_18_plus`) get the spec's rich failure: a
`.ok` result implies every output-schema column is present; a `ValueError`
reports exactly the absent required metric columns together with the full
list of columns actually present, and only fires when some metric column
is absent; a missing key column (`state`, `district`, `year`, `month`)
instead surfaces as a `KeyError` that names exactly the absent
output-schema labels and nothing else — in particular not the columns
present — and only fires when the metric columns are all there. -/
theorem spec_c4 (bioCols demoCols enrolCols : List String) :
    ((∀ out, processBiometricCols bioCols = Except.ok out →
      out = ["state", "district", "year", "month", "bio_5_17", "bio_17_plus"] ∧
      ∀ c ∈ ["state", "district", "year", "month", "bio_5_17", "bio_17_plus"],
        (renameCols (cleanCommonCols bioCols) bioColMap).contains c = true) ∧
    (∀ missing present,
      processBiometricCols bioCols = Except.error (CleanError.valueError missing present) →
      present = renameCols (cleanCommonCols bioCols) bioColMap ∧
      missing = ["bio_5_17", "bio_17_plus"].filter
        (fun c => !((renameCols (cleanCommonCols bioCols) bioColMap).contains c)) ∧
      missing ≠ []) ∧
    (∀ notFound, processBiometricCols bioCols = Except.error (CleanError.keyError notFound) →
      notFound = ["state", "district", "year", "month", "bio_5_17", "bio_17_plus"].filter
        (fun c => !((renameCols (cleanCommonCols bioCols) bioColMap).contains c)) ∧
      notFound ≠ [] ∧
      ∀ c ∈ ["bio_5_17", "bio_17_plus"],
        (renameCols (cleanCommonCols bioCols) bioColMap).contains c = true)) ∧
    ((∀ out, processDemographicCols demoCols = Except.ok out →
      out = ["state", "district", "year", "month", "demo_5_17", "demo_17_plus"] ∧
      ∀ c ∈ ["state", "district", "year", "month", "demo_5_17", "demo_17_plus"],
        (renameCols (cleanCommonCols demoCols) demoColMap).contains c = true) ∧
    (∀ missing present,
      processDemographicCols demoCols = Except.error (CleanError.valueError missing present) →
      present = renameCols (cleanCommonCols demoCols) demoColMap ∧
      missing = ["demo_5_17", "demo_17_plus"].filter
        (fun c => !((renameCols (cleanCommonCols demoCols) demoColMap).contains c)) ∧
      missing ≠ []) ∧
    (∀ notFound, processDemographicCols demoCols = Except.error (CleanError.keyError notFound) →
      notFound = ["state", "district", "year", "month", "demo_5_17", "demo_17_plus"].filter
        (fun c => !((renameCols (cleanCommonCols demoCols) demoColMap).contains c)) ∧
      notFound ≠ [] ∧
      ∀ c ∈ ["demo_5_17", "demo_17_plus"],
        (renameCols (cleanCommonCols demoCols) demoColMap).contains c = true)) ∧
    ((∀ out, processEnrolmentCols enrolCols = Except.ok out →
      out = ["state", "district", "year", "month", "enrol_0_5", "enrol_5_17",
        "enrol_18_plus", "enrolment_count"] ∧
      ∀ c ∈ ["state", "district", "year", "month", "enrol_0_5", "enrol_5_17",
        "enrol_18_plus", "enrolment_count"],
        (addCol (renameCols (cleanCommonCols enrolCols) enrolColMap)
          ("enrolment_count")).contains c = true) ∧
    (∀ missing present,
      processEnrolmentCols enrolCols = Except.error (CleanError.valueError missing present) →
      present = renameCols (cleanCommonCols enrolCols) enrolColMap ∧
      missing = ["enrol_0_5", "enrol_5_17", "enrol_18_plus"].filter
        (fun c => !((renameCols (cleanCommonCols enrolCols) enrolColMap).contains c)) ∧
      missing ≠ []) ∧
    (∀ notFound, processEnrolmentCols enrolCols = Except.error (CleanError.keyError notFound) →
      notFound = ["state", "district", "year", "month", "enrol_0_5", "enrol_5_17",
        "enrol_18_plus", "enrolment_count"].filter
        (fun c => !((addCol (renameCols (cleanCommonCols enrolCols) enrolColMap)
          ("enrolment_count")).contains c)) ∧
      notFound ≠ [] ∧
      ∀ c ∈ ["enrol_0_5", "enrol_5_17", "enrol_18_plus"],
        (renameCols (cleanCommonCols enrolCols) enrolColMap).contains c = true)) := by
  refine ⟨?_, ?_, ?_⟩
  · exact processFamilyCols_spec bioColMap ["bio_5_17", "bio_17_plus"] []
      ["state", "district", "year", "month", "bio_5_17", "bio_17_plus"] bioCols
  · exact processFamilyCols_spec demoColMap ["demo_5_17", "demo_17_plus"] []
      ["state", "district", "year", "month", "demo_5_17", "demo_17_plus"] demoCols
  · exact processFamilyCols_spec enrolColMap ["enrol_0_5", "enrol_5_17", "enrol_18_plus"]
      ["enrolment_count"]
      ["state", "district", "year", "month", "enrol_0_5", "enrol_5_17",
        "enrol_18_plus", "enrolment_count"] enrolCols

/-- C4 witness, exercising two families: a biometric table missing only
the metric column `bio_17_plus` gets the rich failure — the reported
present columns are exactly the cleaned input columns and the reported
missing list is the nonempty filter of absent required metric columns —
while an enrolment table missing only the key column `state` gets the
`KeyError` whose nonempty label list is exactly the absent output-schema
columns. -/
theorem spec_c4_witness :
    (["state", "district", "year", "month", "bio_5_17"] =
      renameCols (cleanCommonCols ["state", "district", "year", "month", "bio_5_17"])
        bioColMap ∧
    ["bio_17_plus"] = ["bio_5_17", "bio_17_plus"].filter
      (fun c => !((renameCols (cleanCommonCols
        ["state", "district", "year", "month", "bio_5_17"]) bioColMap).contains c)) ∧
    (["bio_17_plus"] : List String) ≠ []) ∧
    (["state"] = ["state", "district", "year", "month", "enrol_0_5", "enrol_5_17",
        "enrol_18_plus", "enrolment_count"].filter
        (fun c => !((addCol (renameCols (cleanCommonCols
          ["district", "year", "month", "age_0_5", "age_5_17", "age_18_greater"])
          enrolColMap) ("enrolment_count")).contains c)) ∧
    (["state"] : List String) ≠ []) :=
  ⟨(spec_c4 ["state", "district", "year", "month", "bio_5_17"] [] []).1.2.1
      ["bio_17_plus"] ["state", "district", "year", "month", "bio_5_17"] (by rfl),
   ⟨((spec_c4 [] [] ["district", "year", "month", "age_0_5", "age_5_17",
        "age_18_greater"]).2.2.2.2 ["state"] (by rfl)).1,
    ((spec_c4 [] [] ["district", "year", "month", "age_0_5", "age_5_17",
        "age_18_greater"]).2.2.2.2 ["state"] (by rfl)).2.1⟩⟩
